import Mathlib

/-!
# FAT16 read-only driver (`file_reader.c`): shallow embedding and verification

Bytes and machine integers are natural numbers; every place where the C code
narrows a value to a fixed width carries an explicit `% 2 ^ w`.  Buffers are
lists of bytes.  Memory allocation is assumed to succeed throughout.
-/

namespace Fat16

/-! ## Outcomes -/

/-- Values the driver stores in `errno`. -/
inductive Errno
  | EFAULT | ERANGE | ENOMEM | EINVAL | ENOENT | EISDIR | ENOTDIR | ENXIO_ | EIO_
deriving DecidableEq, Repr

/-- Result of running a function of the driver.  `done a` is a normal return,
`undefined` means the C program left defined behaviour (an access outside a
buffer or outside the allocation table, `free` of a pointer that `malloc` did
not return, a signed overflow), `timeout` means the iteration budget given to
the model of a loop without a bound of its own was used up. -/
inductive Run (α : Type)
  | done (a : α)
  | undefined
  | timeout
deriving DecidableEq, Repr

/-! ## Little helpers for packed little-endian data -/

def BYTES_PER_SECTOR : Nat := 512

/-- The 16-bit little-endian integer stored at byte offset `off` of `b`. -/
def le16 (b : List Nat) (off : Nat) : Nat :=
  b.getD off 0 + 256 * b.getD (off + 1) 0

/-- The 32-bit little-endian integer stored at byte offset `off` of `b`. -/
def le32 (b : List Nat) (off : Nat) : Nat :=
  b.getD off 0 + 256 * b.getD (off + 1) 0 + 65536 * b.getD (off + 2) 0
    + 16777216 * b.getD (off + 3) 0

/-- The byte range `[off, off + n)` of a buffer. -/
def bytes_at (b : List Nat) (off n : Nat) : List Nat :=
  (b.drop off).take n

/-- Bit `k` of `a`, written `(a >> k) & 1` in the source. -/
def bit (a k : Nat) : Nat :=
  (a >>> k) &&& 1

/-- The contents of a C string held in a buffer: the bytes before the first NUL. -/
def c_str (buf : List Nat) : List Nat :=
  buf.takeWhile (fun c => c != 0)

/-- Effect of `memcpy (buf + off, src, src.length)` on a buffer. -/
def memcpy_at (buf : List Nat) (off : Nat) (src : List Nat) : List Nat :=
  buf.take off ++ src ++ buf.drop (off + src.length)

/-! ## Data model (`file_reader.h`) -/

/-- Backing image: `fd` gives the byte stored at each offset of the file,
`file_len` and `sectors` are the 32-bit fields computed when it is opened. -/
structure disk_t where
  fd : Nat → Nat
  file_len : Nat
  sectors : Nat

/-- The packed boot sector. -/
structure boot_record_t where
  jump_code : List Nat
  identifier : List Nat
  small_sector_count : Nat
  sectors_per_cluster : Nat
  reserved_sectors : Nat
  fat_number : Nat
  root_entries : Nat
  total_sectors : Nat
  media_descriptor : Nat
  sectors_per_fat : Nat
  sectors_per_track : Nat
  sides : Nat
  hidden_sectors : Nat
  large_sector_count : Nat
  drive_number : Nat
  reserved : Nat
  ebpb_signature : Nat
  volume_id : Nat
  label : List Nat
  fat_type : List Nat
  boot_code : List Nat
  boot_signature : List Nat
deriving DecidableEq, Repr

/-- The packed 32-byte directory record. -/
structure root_entry_t where
  name : List Nat
  ext : List Nat
  attributes : Nat
  reserved : Nat
  creation_time_tenths : Nat
  creation_time : Nat
  creation_date : Nat
  last_access : Nat
  exfat_reserved : Nat
  mod_time : Nat
  mod_date : Nat
  first_cluster : Nat
  size : Nat
deriving DecidableEq, Repr

/-- An opened volume.  `fat` is the allocation table as 16-bit entries,
`root_entries` the parsed root directory (the C array of pointers into
`root_dir`, here the records themselves). -/
structure volume_t where
  boot_record : boot_record_t
  disk : disk_t
  fat : List Nat
  root_dir : List Nat
  root_entries_n : Nat
  root_entries : List root_entry_t
  first_data_sector : Nat
  sectors_per_cluster : Nat
  bytes_per_cluster : Nat
  data_start : Nat

/-- One link of a file's cluster chain. -/
structure cluster_t where
  number : Nat
  sector : Nat
deriving DecidableEq, Repr

/-- An open file.  `size`, `read_head` and `attributes` are 16-bit fields;
`clusters` is the linked list of the chain. -/
structure file_t where
  name : List Nat
  attributes : Nat
  size : Nat
  read_head : Nat
  clusters : List cluster_t
  volume : volume_t

/-- An open directory. -/
structure dir_t where
  entries : List root_entry_t
  entries_n : Nat
  read_head : Nat
  volume : volume_t

/-- View of a 32-byte buffer as a `root_entry_t` (the pointer cast or
`memcpy` of the source). -/
def decode_entry (r : List Nat) : root_entry_t :=
  { name := bytes_at r 0 8
    ext := bytes_at r 8 3
    attributes := r.getD 11 0
    reserved := r.getD 12 0
    creation_time_tenths := r.getD 13 0
    creation_time := le16 r 14
    creation_date := le16 r 16
    last_access := le16 r 18
    exfat_reserved := le16 r 20
    mod_time := le16 r 22
    mod_date := le16 r 24
    first_cluster := le16 r 26
    size := le32 r 28 }

/-- View of the 512-byte boot sector as a `boot_record_t`. -/
def decode_boot_record (b : List Nat) : boot_record_t :=
  { jump_code := bytes_at b 0 3
    identifier := bytes_at b 3 8
    small_sector_count := le16 b 11
    sectors_per_cluster := b.getD 13 0
    reserved_sectors := le16 b 14
    fat_number := b.getD 16 0
    root_entries := le16 b 17
    total_sectors := le16 b 19
    media_descriptor := b.getD 21 0
    sectors_per_fat := le16 b 22
    sectors_per_track := le16 b 24
    sides := le16 b 26
    hidden_sectors := le32 b 28
    large_sector_count := le32 b 32
    drive_number := b.getD 36 0
    reserved := b.getD 37 0
    ebpb_signature := b.getD 38 0
    volume_id := le32 b 39
    label := bytes_at b 43 11
    fat_type := bytes_at b 54 8
    boot_code := bytes_at b 62 448
    boot_signature := bytes_at b 510 2 }

/-- The consecutive 32-byte records `0 .. n-1` of a buffer. -/
def records (buf : List Nat) (n : Nat) : List (List Nat) :=
  (List.range n).map (fun i => bytes_at buf (i * 32) 32)

/-! ## Name helpers -/

/-- Function `clean_file_name`: the 13-byte zero-initialised buffer it returns.
The display name is the C string `c_str` of this buffer. -/
def clean_file_name (name ext : List Nat) : List Nat :=
  let out := memcpy_at (List.replicate 13 0) 0 (name.take 8)
  let name_end := (out.take 8).findIdx (fun c => c == 32)
  if ext.getD 0 0 = 32 then
    out.set name_end 0
  else
    let out1 := out.set name_end 46
    let name_end1 := name_end + 1
    let out2 := memcpy_at out1 name_end1 (ext.take 3)
    let j := name_end1 + (out2.drop name_end1).findIdx (fun c => c == 32)
    if j < 13 then out2.set j 0 else out2

/-- Function `make_all_caps` applied to the `n = strlen text` bytes of `text`. -/
def make_all_caps (text : List Nat) : List Nat :=
  text.map (fun c => if 97 ≤ c ∧ c ≤ 122 then c - 32 else c)

/-- The test `strcmp (a, b) == 0` on two buffers holding C strings. -/
def str_equal (a b : List Nat) : Bool :=
  c_str a == c_str b

/-! ## Block store -/

/-- Function `disk_open_from_file` on a file with the given contents and length. -/
def disk_open_from_file (content : Nat → Nat) (len : Nat) : disk_t :=
  { fd := content
    file_len := len % 2 ^ 32
    sectors := (len % 2 ^ 32) / BYTES_PER_SECTOR }

/-- Function `disk_read`.  `first_sector` and `sectors_to_read` are the 32-bit
patterns of the `int32_t` arguments.  The range test is done on the 32-bit sum.
`first_byte` is an `int`: when it is negative `fseek` fails and the stream stays
at offset 0, where every call leaves it.  The result is the new content of the
buffer, `sectors_to_read * 512` bytes (a short transfer at the end of the file
is not modelled: `fd` is total). -/
def disk_read (pdisk : disk_t) (first_sector sectors_to_read : Nat) :
    Except Errno (List Nat) :=
  if (first_sector + sectors_to_read) % 2 ^ 32 > pdisk.sectors then
    .error .ERANGE
  else
    let first_byte := (first_sector * BYTES_PER_SECTOR) % 2 ^ 32
    let pos := if first_byte < 2 ^ 31 then first_byte else 0
    .ok ((List.range (sectors_to_read * BYTES_PER_SECTOR)).map
      (fun k => pdisk.fd (pos + k) % 256))

/-! ## Volume parser -/

/-- Size in bytes that `fat_open` passes to `malloc` for the allocation table
(a `uint16_t`). -/
def fat_size (boot_record : boot_record_t) : Nat :=
  (boot_record.sectors_per_fat * BYTES_PER_SECTOR) % 2 ^ 16

/-- Root-directory byte size computed by `fat_open`. -/
def root_dir_size (boot_record : boot_record_t) : Nat :=
  (boot_record.root_entries * 32) % 2 ^ 32

/-- Number of root-directory sectors `fat_open` reads (a `uint16_t`). -/
def root_dir_sectors (boot_record : boot_record_t) : Nat :=
  (root_dir_size boot_record / BYTES_PER_SECTOR) % 2 ^ 16

/-- First sector of the root directory. -/
def root_dir_start (boot_record : boot_record_t) : Nat :=
  (boot_record.reserved_sectors + boot_record.fat_number * boot_record.sectors_per_fat)
    % 2 ^ 32

/-- The `data_start` field computed by `fat_open`. -/
def data_start_of (boot_record : boot_record_t) : Nat :=
  (boot_record.reserved_sectors + boot_record.hidden_sectors
    + boot_record.fat_number * boot_record.sectors_per_fat
    + boot_record.root_entries / 16) % 2 ^ 32

/-- The root-entry loop of `fat_open` over the records it visits: stop at a
record whose name starts with 0, skip deleted and long-name records, append
the others. -/
def parse_root_entries : List (List Nat) → List root_entry_t
  | [] => []
  | r :: rs =>
    let entry := decode_entry r
    if entry.name.getD 0 0 = 0 then []
    else if entry.name.getD 0 0 = 0xE5 ∨ entry.attributes = 0x0F then parse_root_entries rs
    else entry :: parse_root_entries rs

/-- The allocation table as 16-bit entries of the bytes read for it. -/
def fat_of_bytes (b : List Nat) : List Nat :=
  (List.range (b.length / 2)).map (fun i => le16 b (2 * i))

/-- Function `fat_open`.  `heap` gives the bytes that the fresh allocation
for the root directory holds before it is filled: `disk_read` overwrites only
the first `root_dir_sectors * 512` of its `root_dir_size` bytes.

The allocation table gets `malloc (fat_size)` bytes and `disk_read` transfers
`sectors_per_fat * 512` bytes into them: when that is more than `fat_size` the
write runs past the allocation (`undefined`).  When the read of the table or
of the root directory fails, the code calls `free (boot_record)`, and
`boot_record` points to the local array `buf`: the program leaves defined
behaviour there too.  An allocation of 0 bytes is taken to return a pointer
that is not `NULL`. -/
def fat_open (pdisk : disk_t) (first_sector : Nat) (heap : Nat → Nat) :
    Run (Except Errno volume_t) :=
  match disk_read pdisk first_sector 1 with
  | .error e => .done (.error e)
  | .ok buf =>
    let boot_record := decode_boot_record buf
    if boot_record.ebpb_signature ≠ 0x28 ∧ boot_record.ebpb_signature ≠ 0x29 then
      .done (.error .EINVAL)
    else if boot_record.boot_signature.getD 0 0 ≠ 0x55
        ∨ boot_record.boot_signature.getD 1 0 ≠ 0xAA then
      .done (.error .EINVAL)
    else
      match disk_read pdisk boot_record.reserved_sectors boot_record.sectors_per_fat with
      | .error _ => .undefined
      | .ok fat_bytes =>
        if boot_record.sectors_per_fat * BYTES_PER_SECTOR > fat_size boot_record then
          .undefined
        else
          match disk_read pdisk (root_dir_start boot_record) (root_dir_sectors boot_record) with
          | .error _ => .undefined
          | .ok data =>
            let root_dir := (List.range (root_dir_size boot_record)).map
              (fun k => if k < data.length then data.getD k 0 else heap k % 256)
            let root_entries := parse_root_entries (records root_dir boot_record.root_entries)
            .done (.ok { boot_record := boot_record
                         disk := pdisk
                         fat := fat_of_bytes fat_bytes
                         root_dir := root_dir
                         root_entries_n := root_entries.length
                         root_entries := root_entries
                         first_data_sector := root_dir_start boot_record
                         sectors_per_cluster := boot_record.sectors_per_cluster
                         bytes_per_cluster := boot_record.sectors_per_cluster * BYTES_PER_SECTOR
                         data_start := data_start_of boot_record })

/-! ## Path resolver -/

/-- Sector of cluster `c`: the C expression
`data_start + ((c - 2) * sectors_per_cluster)`, where the product is an `int`
and the sum a `uint32_t`. -/
def cluster_sector (data_start sectors_per_cluster c : Nat) : Nat :=
  Int.toNat (((data_start : Int) + ((c : Int) - 2) * (sectors_per_cluster : Int))
    % 4294967296)

/-- The successive tokens that `strsep (&path, "\\")` returns until it
returns `NULL` (92 is the backslash). -/
def strsep_parts : List Nat → List (List Nat)
  | [] => [[]]
  | c :: cs =>
    if c = 92 then [] :: strsep_parts cs
    else
      match strsep_parts cs with
      | [] => [[c]]
      | t :: ts => (c :: t) :: ts

/-- The root-directory loop of `find_file`: the first entry whose cleaned name
compares equal to `part`. -/
def root_lookup : List root_entry_t → List Nat → Option root_entry_t
  | [], _ => none
  | entry :: rest, part =>
    if str_equal (clean_file_name entry.name entry.ext) part then some entry
    else root_lookup rest part

/-- How the scan of one cluster buffer in `find_file` ends. -/
inductive scan_t
  | found (entry : root_entry_t)
  | end_marker
  | overrun
deriving DecidableEq, Repr

/-- The inner `while (true)` loop of `find_file` over the 32-byte records of
the cluster buffer.  The loop has no bound on the offset: when no record of
the buffer ends it, the next `memcpy` reads past the buffer (`overrun`). -/
def scan_cluster : List (List Nat) → List Nat → scan_t
  | [], _ => .overrun
  | r :: rs, part =>
    let entry := decode_entry r
    if entry.name.getD 0 0 = 0 then .end_marker
    else if entry.name.getD 0 0 = 0xE5 ∨ entry.attributes = 0x0F then scan_cluster rs part
    else if str_equal (clean_file_name entry.name entry.ext) part then .found entry
    else scan_cluster rs part

/-- The `while (!new_entry)` loop of `find_file` for one path component inside
a subdirectory, starting at `current_cluster`.  `done none` is the `return NULL`
taken when `disk_read` fails; `done (some entry)` leaves the loop with a match. -/
def find_in_dir (pvolume : volume_t) (part : List Nat) :
    Nat → Nat → Run (Option root_entry_t)
  | 0, _ => .timeout
  | fuel + 1, current_cluster =>
    let sector := cluster_sector pvolume.data_start pvolume.sectors_per_cluster current_cluster
    match disk_read pvolume.disk sector pvolume.sectors_per_cluster with
    | .error _ => .done none
    | .ok buf =>
      match scan_cluster (records buf (pvolume.bytes_per_cluster / 32)) part with
      | .found entry => .done (some entry)
      | .overrun => .undefined
      | .end_marker =>
        match pvolume.fat.get? current_cluster with
        | none => .undefined
        | some next => find_in_dir pvolume part fuel next

/-- How one pass through the body of the `strsep` loop of `find_file` ends:
with `return NULL`, or at the loop head again with a new `current_entry`
(`none` is the `NULL` pointer, which stands for the root directory). -/
inductive step_t
  | ret_null
  | next (current_entry : Option root_entry_t)
deriving DecidableEq, Repr

/-- The body of the `strsep` loop of `find_file` for the token `part`. -/
def find_file_step (pvolume : volume_t) (fuel : Nat)
    (current_entry : Option root_entry_t) (part : List Nat) : Run step_t :=
  if part.length = 0 then .done (.next current_entry)
  else
    match current_entry with
    | none =>
      match root_lookup pvolume.root_entries part with
      | none => .done .ret_null
      | some entry => .done (.next (some entry))
    | some cur =>
      if bit cur.attributes 4 ≠ 0 then
        match find_in_dir pvolume part fuel cur.first_cluster with
        | .done none => .done .ret_null
        | .done (some entry) =>
          if entry.first_cluster ≠ 0 then .done (.next (some entry))
          else .done (.next none)
        | .undefined => .undefined
        | .timeout => .timeout
      else .done .ret_null

/-- The `while ((part = strsep (...)) != NULL)` loop of `find_file` over the
remaining tokens, ending with `return current_entry`. -/
def find_file_loop (pvolume : volume_t) (fuel : Nat) :
    Option root_entry_t → List (List Nat) → Run (Option root_entry_t)
  | current_entry, [] => .done current_entry
  | current_entry, part :: rest =>
    match find_file_step pvolume fuel current_entry part with
    | .done .ret_null => .done none
    | .done (.next next_entry) => find_file_loop pvolume fuel next_entry rest
    | .undefined => .undefined
    | .timeout => .timeout

/-- Function `find_file`.  `path` is the content of the C string; `fuel`
bounds the number of clusters read for one component. -/
def find_file (pvolume : volume_t) (path : List Nat) (fuel : Nat) :
    Run (Option root_entry_t) :=
  find_file_loop pvolume fuel none (strsep_parts path)

/-! ## File stream -/

/-- The `while (true)` loop of `file_open`: the clusters linked after the
cluster `number`. -/
def build_chain (pvolume : volume_t) : Nat → Nat → Run (List cluster_t)
  | 0, _ => .timeout
  | fuel + 1, number =>
    match pvolume.fat.get? number with
    | none => .undefined
    | some new_cluster_number =>
      if new_cluster_number ≥ 0xFFF8 then .done []
      else
        match build_chain pvolume fuel new_cluster_number with
        | .done rest =>
          .done ({ number := new_cluster_number
                   sector := cluster_sector pvolume.data_start pvolume.sectors_per_cluster
                     new_cluster_number } :: rest)
        | .undefined => .undefined
        | .timeout => .timeout

/-- Function `file_open`. -/
def file_open (pvolume : volume_t) (file_name : List Nat) (fuel : Nat) :
    Run (Except Errno file_t) :=
  let search_name := make_all_caps file_name
  match find_file pvolume search_name fuel with
  | .undefined => .undefined
  | .timeout => .timeout
  | .done none => .done (.error .ENOENT)
  | .done (some entry) =>
    if bit entry.attributes 3 ≠ 0 ∨ bit entry.attributes 4 ≠ 0 then
      .done (.error .EISDIR)
    else
      match build_chain pvolume fuel entry.first_cluster with
      | .undefined => .undefined
      | .timeout => .timeout
      | .done rest =>
        .done (.ok
          { name := c_str (clean_file_name entry.name entry.ext)
            attributes := entry.attributes
            size := entry.size % 2 ^ 16
            read_head := 0
            clusters :=
              { number := entry.first_cluster
                sector := cluster_sector pvolume.data_start pvolume.sectors_per_cluster
                  entry.first_cluster } :: rest
            volume := pvolume })

/-- Values of `whence` (`stdio.h`). -/
def SEEK_SET : Int := 0

def SEEK_CUR : Int := 1

def SEEK_END : Int := 2

/-- Largest value of an `int`. -/
def INT_MAX : Int := 2147483647

/-- What `file_seek` leaves behind: the value returned, the value stored in
`errno` if any, and the stream. -/
structure seek_result where
  ret : Int
  err : Option Errno
  stream : file_t

/-- Function `file_seek`; `offset` is the value of the `int32_t` argument.
The 16-bit fields `size` and `read_head` are promoted to `int`, so the sums
and comparisons are made on signed integers; a sum above `INT_MAX` is a signed
overflow, which is undefined.  The new cursor is stored into the 16-bit field
`read_head`, and the value returned is read back from it. -/
def file_seek (stream : file_t) (offset : Int) (whence : Int) : Run seek_result :=
  if whence ≠ SEEK_SET ∧ whence ≠ SEEK_CUR ∧ whence ≠ SEEK_END then
    .done { ret := -1, err := some .EINVAL, stream := stream }
  else if whence = SEEK_SET then
    if offset > (stream.size : Int) then
      .done { ret := -1, err := some .ENXIO_, stream := stream }
    else
      .done { ret := ((offset % 65536).toNat : Int)
              err := none
              stream := { stream with read_head := (offset % 65536).toNat } }
  else if whence = SEEK_END then
    if (stream.size : Int) + offset > INT_MAX then .undefined
    else if (stream.size : Int) + offset > (stream.size : Int) then
      .done { ret := -1, err := some .ENXIO_, stream := stream }
    else
      .done { ret := ((((stream.size : Int) + offset) % 65536).toNat : Int)
              err := none
              stream := { stream with
                read_head := (((stream.size : Int) + offset) % 65536).toNat } }
  else
    if (stream.read_head : Int) + offset > INT_MAX then .undefined
    else if (stream.read_head : Int) + offset > (stream.size : Int) then
      .done { ret := -1, err := some .ENXIO_, stream := stream }
    else
      .done { ret := ((((stream.read_head : Int) + offset) % 65536).toNat : Int)
              err := none
              stream := { stream with
                read_head := (((stream.read_head : Int) + offset) % 65536).toNat } }

/-! ## Directory stream -/

/-- The inner loop of `dir_open` over the records of one cluster buffer: the
entries it appends, and whether a record whose name starts with 0 ended the
search. -/
def dir_collect : List (List Nat) → List root_entry_t × Bool
  | [] => ([], false)
  | r :: rs =>
    let e := decode_entry r
    if e.name.getD 0 0 = 0 then ([], true)
    else if e.name.getD 0 0 = 0xE5 ∨ e.attributes = 0x0F then dir_collect rs
    else ((e :: (dir_collect rs).1), (dir_collect rs).2)

/-- The `while (searching)` loop of `dir_open` from `current_cluster`.  The
bound `offset > bytes_per_cluster - 32` is computed in 32 bits, so it is no
bound at all when `bytes_per_cluster < 32`. -/
def dir_open_loop (pvolume : volume_t) :
    Nat → Nat → Run (Except Errno (List root_entry_t))
  | 0, _ => .timeout
  | fuel + 1, current_cluster =>
    let sector := cluster_sector pvolume.data_start pvolume.sectors_per_cluster current_cluster
    match disk_read pvolume.disk sector pvolume.sectors_per_cluster with
    | .error e => .done (.error e)
    | .ok buf =>
      if pvolume.bytes_per_cluster < 32 then .undefined
      else
        let r := dir_collect (records buf (pvolume.bytes_per_cluster / 32))
        match pvolume.fat.get? current_cluster with
        | none => .undefined
        | some next =>
          if r.2 ∨ next ≥ 0xFFF8 then .done (.ok r.1)
          else
            match dir_open_loop pvolume fuel next with
            | .done (.ok more) => .done (.ok (r.1 ++ more))
            | other => other

/-- Function `dir_open`. -/
def dir_open (pvolume : volume_t) (dir_path : List Nat) (fuel : Nat) :
    Run (Except Errno dir_t) :=
  let clean_path := make_all_caps dir_path
  if str_equal clean_path [92] then
    .done (.ok { entries := pvolume.root_entries
                 entries_n := pvolume.root_entries_n % 2 ^ 16
                 read_head := 0
                 volume := pvolume })
  else
    match find_file pvolume clean_path fuel with
    | .undefined => .undefined
    | .timeout => .timeout
    | .done none => .done (.error .ENOENT)
    | .done (some entry) =>
      if bit entry.attributes 4 = 0 ∨ bit entry.attributes 3 ≠ 0 then
        .done (.error .ENOTDIR)
      else
        match dir_open_loop pvolume fuel entry.first_cluster with
        | .undefined => .undefined
        | .timeout => .timeout
        | .done (.error e) => .done (.error e)
        | .done (.ok entries) =>
          .done (.ok { entries := entries
                       entries_n := entries.length % 2 ^ 16
                       read_head := 0
                       volume := pvolume })

/-- The entry view that `dir_read` fills in. -/
structure dir_entry_t where
  name : List Nat
  size : Nat
  is_archived : Bool
  is_readonly : Bool
  is_system : Bool
  is_hidden : Bool
  is_directory : Bool
deriving DecidableEq, Repr

/-- What `dir_read` leaves behind: the value returned, the value stored in
`errno` if any, the view stored through `pentry` if any, and the directory
handle. -/
structure dir_read_result where
  ret : Int
  err : Option Errno
  pentry : Option dir_entry_t
  pdir : dir_t

/-- Function `dir_read`.  The array `entries` is `NULL` exactly when it holds
no entry (it is grown by `realloc` from `NULL`). -/
def dir_read (pdir : dir_t) : Run dir_read_result :=
  if pdir.entries.isEmpty then
    .done { ret := -1, err := some .EIO_, pentry := none, pdir := pdir }
  else if pdir.read_head = pdir.entries_n then
    .done { ret := 1, err := none, pentry := none, pdir := pdir }
  else
    match pdir.entries.get? pdir.read_head with
    | none => .undefined
    | some entry =>
      .done { ret := 0
              err := none
              pentry := some
                { name := c_str (clean_file_name entry.name entry.ext)
                  size := entry.size
                  is_readonly := bit entry.attributes 0 != 0
                  is_hidden := bit entry.attributes 1 != 0
                  is_system := bit entry.attributes 2 != 0
                  is_archived := bit entry.attributes 5 != 0
                  is_directory := entry.size == 0 }
              pdir := { pdir with read_head := (pdir.read_head + 1) % 2 ^ 16 } }

/-! ## Predicates used in the statements -/

/-- The two signature checks of `fat_open` on a boot record. -/
def signatures_ok (boot_record : boot_record_t) : Prop :=
  (boot_record.ebpb_signature = 0x28 ∨ boot_record.ebpb_signature = 0x29)
    ∧ boot_record.boot_signature = [0x55, 0xAA]

/-- The cleaned short name of an entry, as a string. -/
def clean_name (entry : root_entry_t) : List Nat :=
  c_str (clean_file_name entry.name entry.ext)

/-- A record that the directory loops neither stop at nor skip. -/
def live_record (r : List Nat) : Prop :=
  r.getD 0 0 ≠ 0 ∧ r.getD 0 0 ≠ 0xE5 ∧ r.getD 11 0 ≠ 0x0F

instance (r : List Nat) : Decidable (live_record r) :=
  inferInstanceAs (Decidable (r.getD 0 0 ≠ 0 ∧ r.getD 0 0 ≠ 0xE5 ∧ r.getD 11 0 ≠ 0x0F))

/-- The state of the `strsep` loop of `find_file` after the tokens `parts`,
started with `current_entry`. -/
def context_after (pvolume : volume_t) (fuel : Nat) :
    Option root_entry_t → List (List Nat) → Run step_t
  | current_entry, [] => .done (.next current_entry)
  | current_entry, part :: rest =>
    match find_file_step pvolume fuel current_entry part with
    | .done (.next next_entry) => context_after pvolume fuel next_entry rest
    | other => other

/-- The token `part`, looked up in the directory `context` (`none` for the
root), matches the entry `entry`. -/
def component_match (pvolume : volume_t) (fuel : Nat) (context : Option root_entry_t)
    (part : List Nat) (entry : root_entry_t) : Prop :=
  match context with
  | none => root_lookup pvolume.root_entries part = some entry
  | some cur =>
    bit cur.attributes 4 ≠ 0
      ∧ find_in_dir pvolume part fuel cur.first_cluster = .done (some entry)

/-- The cluster reached from `c0` after `k` steps through the allocation
table. -/
def fat_iter (fat : List Nat) (c0 : Nat) : Nat → Nat
  | 0 => c0
  | k + 1 => fat.getD (fat_iter fat c0 k) 0

/-- Upper-case form of one byte: the letters `a..z` become `A..Z`. -/
def to_upper (c : Nat) : Nat :=
  if 97 ≤ c ∧ c ≤ 122 then c + 65 - 97 else c

/-- The bytes of cluster `c` as `disk_read` delivers them. -/
def cluster_bytes (pvolume : volume_t) (c : Nat) : List Nat :=
  match disk_read pvolume.disk
      (cluster_sector pvolume.data_start pvolume.sectors_per_cluster c)
      pvolume.sectors_per_cluster with
  | .ok buf => buf
  | .error _ => []

/-- The view of an entry that a directory listing shows. -/
def entry_view (entry : root_entry_t) : dir_entry_t :=
  { name := clean_name entry
    size := entry.size
    is_readonly := entry.attributes.testBit 0
    is_hidden := entry.attributes.testBit 1
    is_system := entry.attributes.testBit 2
    is_archived := entry.attributes.testBit 5
    is_directory := entry.size == 0 }

/-- A caller that calls `dir_read` `k` times in a row: the value returned and
the view delivered by each call, and the handle after the last one.  `none`
when a call leaves defined behaviour. -/
def dir_read_calls : Nat → dir_t → Option (List (Int × Option dir_entry_t) × dir_t)
  | 0, pdir => some ([], pdir)
  | k + 1, pdir =>
    match dir_read pdir with
    | .done r =>
      (dir_read_calls k r.pdir).map (fun rest => ((r.ret, r.pentry) :: rest.1, rest.2))
    | _ => none

/-- The name field cut before its first space. -/
def cut_at_space (field : List Nat) : List Nat :=
  field.takeWhile (fun c => c != 32)

/-- A field with only its trailing spaces removed. -/
def trim_trailing (field : List Nat) : List Nat :=
  (field.reverse.dropWhile (fun c => c == 32)).reverse

/-- The cursor that a call of `file_seek` asks for: `offset`,
`cursor + offset` or `size + offset`. -/
def seek_target (stream : file_t) (offset : Int) (whence : Int) : Int :=
  if whence = SEEK_SET then offset
  else if whence = SEEK_CUR then (stream.read_head : Int) + offset
  else (stream.size : Int) + offset

/-! ## Demonstration image

A 4096-byte image used to run the definitions on concrete data: boot sector,
one sector of allocation table, one sector of root directory (16 records), and
the data region from sector 3 (one sector per cluster). -/


/-- A byte image given by segments `(offset, bytes)`; every other byte is 0. -/
def image_of (segs : List (Nat × List Nat)) (i : Nat) : Nat :=
  match segs.find? (fun s => decide (s.1 ≤ i ∧ i < s.1 + s.2.length)) with
  | some s => s.2.getD (i - s.1) 0
  | none => 0

/-- A 32-byte directory record with the given name, extension, attributes,
first cluster and size. -/
def mk_record (name ext : List Nat) (attributes first_cluster size : Nat) : List Nat :=
  name ++ ext ++ [attributes] ++ List.replicate 14 0
    ++ [first_cluster % 256, first_cluster / 256]
    ++ [size % 256, size / 256 % 256, size / 65536 % 256, size / 16777216]

/-- Segments of the demonstration image.  Root directory: `DIR` (directory,
cluster 2), a deleted record, a long-name record, `FILE.TXT` (clusters 3, 4,
size 600).  Cluster 2, the content of `DIR`: `.`, `..`, `NOTE.TXT` (cluster 5,
size 3), `EMPTY` (an empty file: cluster 0, size 0). -/
def demo_segments : List (Nat × List Nat) :=
  [ (13, [1, 1, 0, 1, 16, 0]), (22, [1, 0]), (38, [0x29]), (510, [0x55, 0xAA]),
    (512 + 4, [0xFF, 0xFF, 4, 0, 0xFF, 0xFF, 0xFF, 0xFF]),
    (1024, mk_record [68, 73, 82, 32, 32, 32, 32, 32] [32, 32, 32] 0x10 2 0
        ++ mk_record [0xE5, 73, 82, 32, 32, 32, 32, 32] [32, 32, 32] 0x20 9 7
        ++ mk_record [65, 0, 0, 0, 0, 0, 0, 0] [0, 0, 0] 0x0F 0 0
        ++ mk_record [70, 73, 76, 69, 32, 32, 32, 32] [84, 88, 84] 0x20 3 600),
    (1536, mk_record [46, 32, 32, 32, 32, 32, 32, 32] [32, 32, 32] 0x10 2 0
        ++ mk_record [46, 46, 32, 32, 32, 32, 32, 32] [32, 32, 32] 0x10 0 0
        ++ mk_record [78, 79, 84, 69, 32, 32, 32, 32] [84, 88, 84] 0x20 5 3
        ++ mk_record [69, 77, 80, 84, 89, 32, 32, 32] [32, 32, 32] 0x20 0 0),
    (2048, [104, 101, 108, 108, 111]) ]

def demo_image : Nat → Nat :=
  image_of demo_segments

def demo_disk : disk_t := disk_open_from_file demo_image 4096

/-- Boot sector of the demonstration image. -/
def demo_boot : List Nat :=
  (List.range 512).map (fun k => demo_image k % 256)

/-- The value that a call returned, `d` when it returned none. -/
def ok_value {α : Type} (d : α) : Run (Except Errno α) → α
  | .done (.ok v) => v
  | _ => d

/-- Whether a call returned a value. -/
def returns_ok {α : Type} : Run (Except Errno α) → Bool
  | .done (.ok _) => true
  | _ => false

/-- A volume with no content, used as the default of `ok_value`. -/
def empty_volume : volume_t :=
  { boot_record := decode_boot_record []
    disk := disk_open_from_file (fun _ => 0) 0
    fat := []
    root_dir := []
    root_entries_n := 0
    root_entries := []
    first_data_sector := 0
    sectors_per_cluster := 0
    bytes_per_cluster := 0
    data_start := 0 }

/-- The demonstration image opened as a volume. -/
def demo_volume : volume_t :=
  ok_value empty_volume (fat_open demo_disk 0 (fun _ => 0))

/-- The demonstration image extended to 65537 sectors, with one record named
`X` (cluster 7, size 1) at the start of sector 65536, the sector of cluster
0xFFFF. -/
def stray_image : Nat → Nat :=
  image_of (demo_segments
    ++ [(65536 * 512, mk_record [88, 32, 32, 32, 32, 32, 32, 32] [32, 32, 32] 0x20 7 1)])

def stray_disk : disk_t := disk_open_from_file stray_image (65537 * 512)

/-- The extended image opened as a volume. -/
def stray_volume : volume_t :=
  ok_value empty_volume (fat_open stray_disk 0 (fun _ => 0))

/-- The demonstration image with `hidden_sectors = 0xFFFFFFFC` in its boot
sector, so that `data_start` is `0xFFFFFFFF`. -/
def wrap_image : Nat → Nat :=
  image_of ((28, [0xFC, 0xFF, 0xFF, 0xFF]) :: demo_segments)

def wrap_disk : disk_t := disk_open_from_file wrap_image 4096

/-- The image with the large `hidden_sectors` opened as a volume. -/
def wrap_volume : volume_t :=
  ok_value empty_volume (fat_open wrap_disk 0 (fun _ => 0))

/-- The cluster chain of the handle that `file_open` returned, if any. -/
def clusters_of : Run (Except Errno file_t) → Option (List cluster_t)
  | .done (.ok f) => some f.clusters
  | _ => none

/-- The handle of `\FILE.TXT` on the demonstration volume: size 600, chain
3, 4 at sectors 4, 5, cursor 0. -/
def demo_file : file_t :=
  { name := [70, 73, 76, 69, 46, 84, 88, 84]
    attributes := 0x20
    size := 600
    read_head := 0
    clusters := [{ number := 3, sector := 4 }, { number := 4, sector := 5 }]
    volume := demo_volume }

/-- The same handle with the cursor at 2. -/
def demo_file_mid : file_t :=
  { demo_file with read_head := 2 }

/-- The demonstration image with two more root records, `BIG.BIN` (cluster 3,
declared size 70000) and the directory `SUB` (cluster 6, whose sector holds
only zero bytes), and the table entry of cluster 6 set to 0xFFFF. -/
def extra_image : Nat → Nat :=
  image_of (demo_segments
    ++ [(512 + 12, [0xFF, 0xFF]),
        (1024 + 128, mk_record [66, 73, 71, 32, 32, 32, 32, 32] [66, 73, 78] 0x20 3 70000
          ++ mk_record [83, 85, 66, 32, 32, 32, 32, 32] [32, 32, 32] 0x10 6 0)])

def extra_disk : disk_t := disk_open_from_file extra_image 4096

/-- The image with `BIG.BIN` and `SUB` opened as a volume. -/
def extra_volume : volume_t :=
  ok_value empty_volume (fat_open extra_disk 0 (fun _ => 0))

/-- The demonstration image in which the chain of `DIR` is 2, 6 and cluster 6
starts with a record named `OLD` (cluster 7, size 9); cluster 2 still ends
its listing with a zero record after `EMPTY`. -/
def stale_image : Nat → Nat :=
  image_of ([(512 + 4, [6, 0]), (512 + 12, [0xFF, 0xFF]),
      (3584, mk_record [79, 76, 68, 32, 32, 32, 32, 32] [32, 32, 32] 0x20 7 9)]
    ++ demo_segments)

def stale_disk : disk_t := disk_open_from_file stale_image 4096

/-- The image with the stale record opened as a volume. -/
def stale_volume : volume_t :=
  ok_value empty_volume (fat_open stale_disk 0 (fun _ => 0))

/-- Size and cursor of the handle that `file_open` returned, if any. -/
def size_and_cursor : Run (Except Errno file_t) → Option (Nat × Nat)
  | .done (.ok f) => some (f.size, f.read_head)
  | _ => none

/-- Value returned, `errno` and resulting cursor of a call of `file_seek`;
`none` when the call leaves defined behaviour. -/
def seek_outcome : Run seek_result → Option (Int × Option Errno × Nat)
  | .done r => some (r.ret, r.err, r.stream.read_head)
  | _ => none

/-- Entry list and count of the handle that `dir_open` returned, if any. -/
def listing_of : Run (Except Errno dir_t) → Option (List root_entry_t × Nat)
  | .done (.ok d) => some (d.entries, d.entries_n)
  | _ => none

/-- Value returned, `errno` and view delivered by a call of `dir_read`. -/
def dir_read_outcome : Run dir_read_result → Option (Int × Option Errno × Option dir_entry_t)
  | .done r => some (r.ret, r.err, r.pentry)
  | _ => none

/-- The handle of a directory without entries on the volume `extra_volume`,
as `dir_open` returns it for `\SUB`. -/
def empty_dir : dir_t :=
  { entries := [], entries_n := 0, read_head := 0, volume := extra_volume }

/-- The handle that `file_open` returned, `d` when it returned none. -/
def opened_file (d : file_t) : Run (Except Errno file_t) → file_t
  | .done (.ok f) => f
  | _ => d

/-- Whether a run left defined behaviour. -/
def run_undefined {α : Type} : Run α → Bool
  | .undefined => true
  | _ => false

/-- The handle of the root directory of the demonstration volume, as
`dir_open` returns it for the bare separator. -/
def demo_root_dir : dir_t :=
  { entries := demo_volume.root_entries
    entries_n := demo_volume.root_entries_n % 2 ^ 16
    read_head := 0
    volume := demo_volume }

/-- The boot sector of the demonstration image with `sectors_per_fat = 128`. -/
def wide_fat_boot : List Nat :=
  (List.range 512).map (fun k => image_of ((22, [128, 0]) :: demo_segments) k % 256)

/-- The demonstration image in which the cluster of `DIR` (cluster 2, one
sector) is filled with sixteen records named `A`: no record of the cluster has
a name that starts with 0. -/
def full_image : Nat → Nat :=
  image_of ((1536, (List.range 16).flatMap
      (fun _ => mk_record [65, 32, 32, 32, 32, 32, 32, 32] [32, 32, 32] 0x20 7 1))
    :: demo_segments)

def full_disk : disk_t := disk_open_from_file full_image 4096

/-- The image with the full directory cluster opened as a volume. -/
def full_volume : volume_t :=
  ok_value empty_volume (fat_open full_disk 0 (fun _ => 0))

/-- The `errno` value with which an open call failed, if it failed. -/
def errno_of {α : Type} : Run (Except Errno α) → Option Errno
  | .done (.error e) => some e
  | _ => none

/-- The demonstration image with `sectors_per_fat = 128`, extended to 131
sectors: boot sector, 128 sectors of allocation table, the root directory in
sector 129. -/
def wide_fat_image : Nat → Nat :=
  image_of ((22, [128, 0]) :: demo_segments)

def wide_fat_disk : disk_t := disk_open_from_file wide_fat_image (131 * 512)

/-- The demonstration image with `root_entries = 8`: the root directory takes
256 bytes, half a sector. -/
def short_root_image : Nat → Nat :=
  image_of ((17, [8, 0]) :: demo_segments)

def short_root_disk : disk_t := disk_open_from_file short_root_image 4096

/-- Boot sector of the image with `root_entries = 8`. -/
def short_root_boot : List Nat :=
  (List.range 512).map (fun k => short_root_image k % 256)

/-- Heap contents left by an earlier use: every 32 bytes the byte 65 followed
by 31 spaces. -/
def stale_heap (k : Nat) : Nat :=
  if k % 32 = 0 then 65 else 32

/-- The demonstration image with one more root record, the empty file `Z`
(first cluster 0, size 0). -/
def zero_image : Nat → Nat :=
  image_of (demo_segments
    ++ [(1024 + 128, mk_record [90, 32, 32, 32, 32, 32, 32, 32] [32, 32, 32] 0x20 0 0)])

def zero_disk : disk_t := disk_open_from_file zero_image 4096

/-- The image with the empty root file opened as a volume. -/
def zero_volume : volume_t :=
  ok_value empty_volume (fat_open zero_disk 0 (fun _ => 0))

deriving instance DecidableEq for Except

/-! ## Verification -/

/-! ## Basic facts -/

theorem disk_read_length {pdisk : disk_t} {first_sector n : Nat} {buf : List Nat}
    (h : disk_read pdisk first_sector n = .ok buf) : buf.length = n * 512 := by
  unfold disk_read at h
  split at h
  · cases h
  · injection h with h
    subst h
    simp [BYTES_PER_SECTOR]

theorem getD_take_zero (r : List Nat) (n : Nat) :
    (List.take (n + 1) r).getD 0 0 = r.getD 0 0 := by
  cases r <;> simp

theorem decode_entry_name0 (r : List Nat) :
    (decode_entry r).name.getD 0 0 = r.getD 0 0 := by
  simp [decode_entry, bytes_at, getD_take_zero]

theorem parse_root_entries_eq (rs : List (List Nat)) :
    parse_root_entries rs =
      (((rs.takeWhile (fun r => r.getD 0 0 != 0)).filter
          (fun r => !(r.getD 0 0 == 0xE5 || r.getD 11 0 == 0x0F))).map decode_entry) := by
  induction rs with
  | nil => simp [parse_root_entries]
  | cons r rs ih =>
    simp only [parse_root_entries, decode_entry_name0]
    by_cases h0 : r.getD 0 0 = 0
    · have h0' : (r.getD 0 0 != 0) = false := by simpa using h0
      rw [if_pos h0, List.takeWhile_cons, h0']
      rfl
    · by_cases h1 : r.getD 0 0 = 0xE5 ∨ (decode_entry r).attributes = 0x0F
      · have h1' : (r.getD 0 0 == 0xE5 || r.getD 11 0 == 0x0F) = true := by
          simpa [decode_entry] using h1
        have h0' : (r.getD 0 0 != 0) = true := by simpa using h0
        rw [if_neg h0, if_pos h1, ih, List.takeWhile_cons, h0', if_pos rfl, List.filter_cons, h1']
        rfl
      · have h1' : (r.getD 0 0 == 0xE5 || r.getD 11 0 == 0x0F) = false := by
          simpa [decode_entry] using h1
        have h0' : (r.getD 0 0 != 0) = true := by simpa using h0
        rw [if_neg h0, if_neg h1, ih, List.takeWhile_cons, h0', if_pos rfl, List.filter_cons, h1']
        rfl

theorem boot_signature_pair {buf : List Nat} (hlen : buf.length = 512) :
    (decode_boot_record buf).boot_signature = [0x55, 0xAA] ↔
      ((decode_boot_record buf).boot_signature.getD 0 0 = 0x55
        ∧ (decode_boot_record buf).boot_signature.getD 1 0 = 0xAA) := by
  have hl : (decode_boot_record buf).boot_signature.length = 2 := by
    simp [decode_boot_record, bytes_at, hlen]
  generalize (decode_boot_record buf).boot_signature = s at hl ⊢
  match s, hl with
  | [a, b], _ => simp

theorem disk_read_getD_lt {pdisk : disk_t} {first_sector n : Nat} {buf : List Nat}
    (h : disk_read pdisk first_sector n = .ok buf) (i : Nat) : buf.getD i 0 < 256 := by
  unfold disk_read at h
  split at h
  · cases h
  · injection h with h
    subst h
    rw [List.getD_eq_getElem?_getD, List.getElem?_map]
    cases hi : (List.range (n * BYTES_PER_SECTOR))[i]? with
    | none => simp
    | some k => simp only [Option.map_some', Option.getD_some]; omega

theorem isOk_elim {α : Type} {x : Except Errno α} (h : x.isOk = true) :
    ∃ v, x = .ok v := by
  cases x with
  | ok v => exact ⟨v, rfl⟩
  | error e => simp [Except.isOk, Except.toBool] at h

theorem eq_ok_value {α : Type} (d : α) {x : Run (Except Errno α)}
    (h : returns_ok x = true) : x = .done (.ok (ok_value d x)) := by
  cases x with
  | done r =>
    cases r with
    | ok v => rfl
    | error e => cases h
  | undefined => cases h
  | timeout => cases h

/-- The signature checks of `fat_open`: when the boot sector, the
allocation-table region and the root-directory region can be read and the
table fits the bytes allocated for it (`sectors_per_fat < 128`), `fat_open`
returns a volume exactly when the extended signature is 0x28 or 0x29 and the
boot signature is the pair (0x55, 0xAA); when a check fails it returns no
volume and reports `EINVAL`, whatever the table size. -/
theorem fat_open_signature_iff (pdisk : disk_t) (first_sector : Nat) (heap : Nat → Nat)
    (buf : List Nat)
    (hboot : disk_read pdisk first_sector 1 = .ok buf)
    (hfat : (disk_read pdisk (decode_boot_record buf).reserved_sectors
      (decode_boot_record buf).sectors_per_fat).isOk = true)
    (hfit : (decode_boot_record buf).sectors_per_fat < 128)
    (hroot : (disk_read pdisk (root_dir_start (decode_boot_record buf))
      (root_dir_sectors (decode_boot_record buf))).isOk = true) :
    ((∃ volume, fat_open pdisk first_sector heap = .done (.ok volume))
        ↔ signatures_ok (decode_boot_record buf))
      ∧ (¬ signatures_ok (decode_boot_record buf)
        → fat_open pdisk first_sector heap = .done (.error .EINVAL)) := by
  have hfit' : ¬ (decode_boot_record buf).sectors_per_fat * BYTES_PER_SECTOR
      > fat_size (decode_boot_record buf) := by
    simp only [fat_size, BYTES_PER_SECTOR]
    omega
  obtain ⟨fat_bytes, hfat⟩ := isOk_elim hfat
  obtain ⟨data, hroot⟩ := isOk_elim hroot
  have hlen : buf.length = 512 := by simpa using disk_read_length hboot
  have hsig := boot_signature_pair hlen
  by_cases hs : signatures_ok (decode_boot_record buf)
  · have h1 : ¬ ((decode_boot_record buf).ebpb_signature ≠ 0x28
        ∧ (decode_boot_record buf).ebpb_signature ≠ 0x29) := by
      rcases hs.1 with h | h <;> simp [h]
    have h2 : ¬ ((decode_boot_record buf).boot_signature.getD 0 0 ≠ 0x55
        ∨ (decode_boot_record buf).boot_signature.getD 1 0 ≠ 0xAA) := by
      have := hsig.1 hs.2
      rw [this.1, this.2]
      simp
    refine ⟨⟨fun _ => hs, fun _ => ?_⟩, fun h => absurd hs h⟩
    simp only [fat_open, hboot, hfat, hroot, if_neg h1, if_neg h2, if_neg hfit']
    exact ⟨_, rfl⟩
  · have hE : fat_open pdisk first_sector heap = .done (.error .EINVAL) := by
      simp only [fat_open, hboot]
      by_cases h1 : (decode_boot_record buf).ebpb_signature ≠ 0x28
          ∧ (decode_boot_record buf).ebpb_signature ≠ 0x29
      · rw [if_pos h1]
      · rw [if_neg h1]
        by_cases h2 : (decode_boot_record buf).boot_signature.getD 0 0 ≠ 0x55
            ∨ (decode_boot_record buf).boot_signature.getD 1 0 ≠ 0xAA
        · rw [if_pos h2]
        · exfalso
          apply hs
          refine ⟨?_, hsig.2 ?_⟩
          · by_contra hc
            push_neg at hc
            exact h1 hc
          · push_neg at h2
            exact h2
    refine ⟨⟨fun ⟨v, hv⟩ => ?_, fun h => absurd h hs⟩, fun _ => hE⟩
    rw [hE] at hv
    cases hv

set_option maxRecDepth 100000 in
/-- The signature checks on the demonstration image, whose signatures are
valid. -/
theorem fat_open_signature_iff_witness :
    disk_read demo_disk 0 1 = .ok demo_boot
      ∧ ((∃ volume, fat_open demo_disk 0 (fun _ => 0) = .done (.ok volume))
        ↔ signatures_ok (decode_boot_record demo_boot)) :=
  ⟨by decide!, (fat_open_signature_iff demo_disk 0 (fun _ => 0) demo_boot (by decide!)
    (by decide!) (by decide!) (by decide!)).1⟩

set_option maxRecDepth 100000 in
/-- C1 fails on the image with `sectors_per_fat = 128`: the boot sector, the
128 sectors of the allocation table and the root directory can be read and
both signatures are valid, but `fat_open` returns no volume: the size it
computes for the table is 0 bytes, and the read of the table writes 65536
bytes into that allocation. -/
theorem fat_open_wide_table :
    disk_read wide_fat_disk 0 1 = .ok wide_fat_boot
      ∧ (decode_boot_record wide_fat_boot).ebpb_signature = 0x29
      ∧ (decode_boot_record wide_fat_boot).boot_signature = [0x55, 0xAA]
      ∧ (decode_boot_record wide_fat_boot).sectors_per_fat = 128
      ∧ (disk_read wide_fat_disk (decode_boot_record wide_fat_boot).reserved_sectors
          (decode_boot_record wide_fat_boot).sectors_per_fat).isOk = true
      ∧ (disk_read wide_fat_disk (root_dir_start (decode_boot_record wide_fat_boot))
          (root_dir_sectors (decode_boot_record wide_fat_boot))).isOk = true
      ∧ fat_size (decode_boot_record wide_fat_boot) = 0
      ∧ run_undefined (fat_open wide_fat_disk 0 (fun _ => 0)) = true := by
  decide!

theorem root_dir_filled {re : Nat} {data : List Nat} (heap : Nat → Nat)
    (hlen : data.length = re * 32) :
    (List.range (re * 32)).map
      (fun k => if k < data.length then data.getD k 0 else heap k % 256) = data := by
  apply List.ext_getElem
  · simp [hlen]
  · intro i h1 h2
    simp only [List.getElem_map, List.getElem_range]
    rw [if_pos h2, List.getD_eq_getElem?_getD, List.getElem?_eq_getElem h2]
    rfl

/-- The root entry list of a volume returned by `fat_open` is made of the first
`root_entries` 32-byte records of the volume's `root_dir` buffer, cut before
the first record whose name byte 0 is 0x00, without the records whose name
byte 0 is 0xE5 or whose attribute byte is 0x0F, in buffer order, and
`root_entries_n` is its length.  The buffer holds the sectors read from the
disk when `root_entries` is a multiple of 16; otherwise its last
`root_entries % 16` records were never written. -/
theorem fat_open_root_entries (pdisk : disk_t) (first_sector : Nat) (heap : Nat → Nat)
    (volume : volume_t) (h : fat_open pdisk first_sector heap = .done (.ok volume)) :
    volume.root_entries =
        ((((records volume.root_dir volume.boot_record.root_entries).takeWhile
            (fun r => r.getD 0 0 != 0)).filter
            (fun r => !(r.getD 0 0 == 0xE5 || r.getD 11 0 == 0x0F))).map decode_entry)
      ∧ volume.root_entries_n = volume.root_entries.length
      ∧ volume.root_dir.length = volume.boot_record.root_entries * 32
      ∧ (volume.boot_record.root_entries % 16 = 0 →
          disk_read pdisk (root_dir_start volume.boot_record)
            (root_dir_sectors volume.boot_record) = .ok volume.root_dir) := by
  unfold fat_open at h
  cases hboot : disk_read pdisk first_sector 1 with
  | error e => rw [hboot] at h; cases h
  | ok buf =>
    rw [hboot] at h
    simp only at h
    split at h
    · cases h
    · split at h
      · cases h
      · cases hfat : disk_read pdisk (decode_boot_record buf).reserved_sectors
            (decode_boot_record buf).sectors_per_fat with
        | error e => rw [hfat] at h; cases h
        | ok fat_bytes =>
          rw [hfat] at h
          simp only at h
          split at h
          · cases h
          cases hroot : disk_read pdisk (root_dir_start (decode_boot_record buf))
              (root_dir_sectors (decode_boot_record buf)) with
          | error e => rw [hroot] at h; cases h
          | ok data =>
            rw [hroot] at h
            simp only at h
            injection h with h
            injection h with h
            subst h
            have hre : (decode_boot_record buf).root_entries < 65536 := by
              have h1 := disk_read_getD_lt hboot 17
              have h2 := disk_read_getD_lt hboot (17 + 1)
              simp only [decode_boot_record, le16]
              omega
            have hsize : root_dir_size (decode_boot_record buf)
                = (decode_boot_record buf).root_entries * 32 := by
              unfold root_dir_size
              omega
            refine ⟨parse_root_entries_eq _, rfl, ?_, ?_⟩
            · simp [hsize]
            · intro h16
              dsimp only at h16
              have hdl : data.length = (decode_boot_record buf).root_entries * 32 := by
                rw [disk_read_length hroot]
                unfold root_dir_sectors
                rw [hsize]
                simp only [BYTES_PER_SECTOR]
                omega
              simp only [hroot, hsize]
              rw [root_dir_filled heap hdl]

set_option maxRecDepth 100000 in
/-- The root entry list of the demonstration image: of its four root records,
the deleted one and the long-name one are left out. -/
theorem fat_open_root_entries_witness :
    fat_open demo_disk 0 (fun _ => 0) = .done (.ok demo_volume)
      ∧ demo_volume.root_entries.map (fun e => e.first_cluster) = [2, 3]
      ∧ demo_volume.root_entries =
        ((((records demo_volume.root_dir demo_volume.boot_record.root_entries).takeWhile
            (fun r => r.getD 0 0 != 0)).filter
            (fun r => !(r.getD 0 0 == 0xE5 || r.getD 11 0 == 0x0F))).map decode_entry) :=
  ⟨eq_ok_value empty_volume (by decide!), by decide!,
    (fat_open_root_entries demo_disk 0 (fun _ => 0) demo_volume
      (eq_ok_value empty_volume (by decide!))).1⟩

set_option maxRecDepth 100000 in
/-- C2 fails on the image with `root_entries = 8`: the first eight records of
the root-directory region on the disk (sector 2) list `DIR` and `FILE.TXT`,
but `fat_open` reads `256 / 512 = 0` sectors of it and parses the eight records
from the bytes that its allocation held before: with a zeroed heap the root
entry list is empty, and with the stale heap it has eight entries named `A`,
none of which is on the disk. -/
theorem fat_open_root_from_heap :
    disk_read short_root_disk 0 1 = .ok short_root_boot
      ∧ (decode_boot_record short_root_boot).root_entries = 8
      ∧ root_dir_size (decode_boot_record short_root_boot) = 256
      ∧ root_dir_sectors (decode_boot_record short_root_boot) = 0
      ∧ root_dir_start (decode_boot_record short_root_boot) = 2
      ∧ (disk_read short_root_disk 2 1).map
          (fun region => (parse_root_entries (records region 8)).map clean_name)
        = .ok [[68, 73, 82], [70, 73, 76, 69, 46, 84, 88, 84]]
      ∧ returns_ok (fat_open short_root_disk 0 (fun _ => 0)) = true
      ∧ (ok_value empty_volume (fat_open short_root_disk 0 (fun _ => 0))).root_entries = []
      ∧ returns_ok (fat_open short_root_disk 0 stale_heap) = true
      ∧ (ok_value empty_volume (fat_open short_root_disk 0 stale_heap)).root_entries.map
          clean_name = List.replicate 8 [65] := by
  decide!

/-! ### Path resolution in the root directory -/

theorem strsep_parts_ne_nil (s : List Nat) : strsep_parts s ≠ [] := by
  induction s with
  | nil => simp [strsep_parts]
  | cons c cs ih =>
    unfold strsep_parts
    split
    · simp
    · split <;> simp

theorem strsep_parts_no_sep (s : List Nat) (h : 92 ∉ s) : strsep_parts s = [s] := by
  induction s with
  | nil => rfl
  | cons c cs ih =>
    have hc : c ≠ 92 := fun hc => h (by simp [hc])
    have hcs : 92 ∉ cs := fun hcs => h (by simp [hcs])
    simp [strsep_parts, hc, ih hcs]

theorem strsep_parts_append (a b : List Nat) :
    strsep_parts (a ++ 92 :: b) = strsep_parts a ++ strsep_parts b := by
  induction a with
  | nil => simp [strsep_parts]
  | cons c cs ih =>
    by_cases hc : c = 92
    · simp [strsep_parts, hc, ih]
    · simp only [List.cons_append, strsep_parts, if_neg hc]
      have ih' : strsep_parts (cs.append (92 :: b)) = strsep_parts cs ++ strsep_parts b := ih
      rw [ih']
      cases hcs : strsep_parts cs with
      | nil => exact absurd hcs (strsep_parts_ne_nil cs)
      | cons t ts => simp

theorem c_str_of_no_zero (s : List Nat) (h : 0 ∉ s) : c_str s = s := by
  unfold c_str
  rw [List.takeWhile_eq_self_iff]
  intro x hx
  have : x ≠ 0 := fun h0 => h (h0 ▸ hx)
  simpa using this

theorem root_lookup_eq_find (entries : List root_entry_t) (part : List Nat) :
    root_lookup entries part =
      entries.find? (fun e => str_equal (clean_file_name e.name e.ext) part) := by
  induction entries with
  | nil => rfl
  | cons e es ih =>
    unfold root_lookup
    by_cases h : str_equal (clean_file_name e.name e.ext) part = true
    · simp [h]
    · simp [h, ih]

theorem str_equal_clean (e : root_entry_t) (part : List Nat) (h0 : 0 ∉ part) :
    str_equal (clean_file_name e.name e.ext) part = (clean_name e == part) := by
  unfold str_equal clean_name
  rw [c_str_of_no_zero part h0]

theorem find_file_single (pvolume : volume_t) (NAME : List Nat) (fuel : Nat)
    (hne : NAME ≠ []) (hsep : 92 ∉ NAME) :
    find_file pvolume (92 :: NAME) fuel = .done (root_lookup pvolume.root_entries NAME) := by
  have hp : strsep_parts (92 :: NAME) = [[], NAME] := by
    simp [strsep_parts, strsep_parts_no_sep NAME hsep]
  have hl : NAME.length ≠ 0 := by simpa using hne
  unfold find_file
  rw [hp]
  simp only [find_file_loop, find_file_step, List.length_nil, if_true, if_neg hl]
  cases root_lookup pvolume.root_entries NAME <;> rfl

/-- C3: for a single-component path `\NAME` (NAME non-empty, without backslash
and NUL), `find_file` returns the first entry of the root entry list whose
cleaned short name equals NAME, whatever its attributes, size and starting
cluster, and returns not-found exactly when no root entry has that cleaned
name. -/
theorem find_file_root_component (pvolume : volume_t) (NAME : List Nat) (fuel : Nat)
    (hne : NAME ≠ []) (hsep : 92 ∉ NAME) (hnul : 0 ∉ NAME) :
    find_file pvolume (92 :: NAME) fuel
        = .done (pvolume.root_entries.find? (fun e => clean_name e == NAME))
      ∧ (find_file pvolume (92 :: NAME) fuel = .done none
        ↔ ∀ e ∈ pvolume.root_entries, clean_name e ≠ NAME) := by
  have h1 : find_file pvolume (92 :: NAME) fuel
      = .done (pvolume.root_entries.find? (fun e => clean_name e == NAME)) := by
    rw [find_file_single pvolume NAME fuel hne hsep, root_lookup_eq_find]
    congr 2
    funext e
    exact str_equal_clean e NAME hnul
  refine ⟨h1, ?_⟩
  rw [h1]
  constructor
  · intro h e he
    injection h with h
    rw [List.find?_eq_none] at h
    simpa using h e he
  · intro h
    congr 1
    rw [List.find?_eq_none]
    intro e he
    simpa using h e he

set_option maxRecDepth 100000 in
/-- C3 on the demonstration volume: `\FILE.TXT` is the second root entry. -/
theorem find_file_root_component_witness :
    find_file demo_volume [92, 70, 73, 76, 69, 46, 84, 88, 84] 0
      = .done (demo_volume.root_entries.find?
          (fun e => clean_name e == [70, 73, 76, 69, 46, 84, 88, 84]))
    ∧ (demo_volume.root_entries.find?
          (fun e => clean_name e == [70, 73, 76, 69, 46, 84, 88, 84])).map
        (fun e => (e.first_cluster, e.size)) = some (3, 600) :=
  ⟨(find_file_root_component demo_volume [70, 73, 76, 69, 46, 84, 88, 84] 0
      (by decide!) (by decide!) (by decide!)).1, by decide!⟩

/-! ### Path resolution through subdirectories -/

theorem bit_ne_zero_iff (a k : Nat) : bit a k ≠ 0 ↔ a.testBit k = true := by
  unfold bit Nat.testBit
  rw [Nat.land_comm]
  simp

theorem bit_eq_zero_iff (a k : Nat) : bit a k = 0 ↔ a.testBit k = false := by
  have h := bit_ne_zero_iff a k
  constructor
  · intro h0
    cases ht : a.testBit k with
    | false => rfl
    | true => exact absurd h0 (h.2 ht)
  · intro hf
    by_contra hne
    rw [h.1 hne] at hf
    cases hf

theorem scan_cluster_found (pre : List (List Nat)) (r : List Nat) (post : List (List Nat))
    (part : List Nat)
    (hpre : ∀ q ∈ pre, q.getD 0 0 ≠ 0
      ∧ (live_record q → str_equal (clean_file_name (decode_entry q).name
          (decode_entry q).ext) part = false))
    (hr : live_record r)
    (hname : str_equal (clean_file_name (decode_entry r).name (decode_entry r).ext) part
      = true) :
    scan_cluster (pre ++ r :: post) part = .found (decode_entry r) := by
  induction pre with
  | nil =>
    obtain ⟨h0, h1, h2⟩ := hr
    have hskip : ¬ ((decode_entry r).name.getD 0 0 = 0xE5
        ∨ (decode_entry r).attributes = 0x0F) := by
      rw [decode_entry_name0]
      simp only [decode_entry]
      exact fun h => h.elim h1 h2
    simp only [List.nil_append, scan_cluster]
    rw [if_neg (by rw [decode_entry_name0]; exact h0), if_neg hskip, if_pos hname]
  | cons q qs ih =>
    have hq := hpre q (by simp)
    have ih' := ih (fun x hx => hpre x (by simp [hx]))
    simp only [List.cons_append, scan_cluster]
    rw [if_neg (by rw [decode_entry_name0]; exact hq.1)]
    by_cases hskip : (decode_entry q).name.getD 0 0 = 0xE5 ∨ (decode_entry q).attributes = 0x0F
    · rw [if_pos hskip]
      exact ih'
    · rw [if_neg hskip]
      have hlive : live_record q := by
        rw [decode_entry_name0] at hskip
        simp only [decode_entry] at hskip
        push_neg at hskip
        exact ⟨hq.1, hskip.1, hskip.2⟩
      rw [hq.2 hlive]
      exact ih'

theorem find_file_two (pvolume : volume_t) (DIR FILE : List Nat) (fuel : Nat)
    (hDsep : 92 ∉ DIR) (hFsep : 92 ∉ FILE) :
    find_file pvolume (92 :: DIR ++ 92 :: FILE) fuel
      = find_file_loop pvolume fuel none [DIR, FILE] := by
  have hp : strsep_parts (92 :: DIR ++ 92 :: FILE) = [[], DIR, FILE] := by
    have h := strsep_parts_append (92 :: DIR) FILE
    rw [h]
    simp [strsep_parts, strsep_parts_no_sep DIR hDsep, strsep_parts_no_sep FILE hFsep]
  unfold find_file
  rw [hp]
  simp [find_file_loop, find_file_step]

/-- Resolution of a two-component path: when the first root entry with cleaned
name DIR is a directory and, in the first cluster of DIR, the first live
record with cleaned name FILE lies before any record whose name starts with 0
and has a starting cluster other than 0, `find_file` on `\DIR\FILE` returns
that record's entry. -/
theorem find_file_in_subdir (pvolume : volume_t) (DIR FILE : List Nat) (fuel : Nat)
    (d : root_entry_t) (buf : List Nat) (pre : List (List Nat)) (r : List Nat)
    (post : List (List Nat))
    (hD : DIR ≠ []) (hDsep : 92 ∉ DIR) (hDnul : 0 ∉ DIR)
    (hF : FILE ≠ []) (hFsep : 92 ∉ FILE) (hFnul : 0 ∉ FILE)
    (hd : pvolume.root_entries.find? (fun e => clean_name e == DIR) = some d)
    (hdir : d.attributes.testBit 4 = true)
    (hread : disk_read pvolume.disk
      (cluster_sector pvolume.data_start pvolume.sectors_per_cluster d.first_cluster)
      pvolume.sectors_per_cluster = .ok buf)
    (hrecs : records buf (pvolume.bytes_per_cluster / 32) = pre ++ r :: post)
    (hpre : ∀ q ∈ pre, q.getD 0 0 ≠ 0
      ∧ (live_record q → clean_name (decode_entry q) ≠ FILE))
    (hr : live_record r) (hname : clean_name (decode_entry r) = FILE)
    (hfc : (decode_entry r).first_cluster ≠ 0) :
    find_file pvolume (92 :: DIR ++ 92 :: FILE) (fuel + 1)
      = .done (some (decode_entry r)) := by
  rw [find_file_two pvolume DIR FILE (fuel + 1) hDsep hFsep]
  have hlook : root_lookup pvolume.root_entries DIR = some d := by
    rw [root_lookup_eq_find, ← hd]
    congr 1
    funext e
    exact str_equal_clean e DIR hDnul
  have hscan : scan_cluster (records buf (pvolume.bytes_per_cluster / 32)) FILE
      = .found (decode_entry r) := by
    rw [hrecs]
    apply scan_cluster_found pre r post FILE _ hr
    · rw [str_equal_clean _ FILE hFnul, hname]
      simp
    · intro q hq
      refine ⟨(hpre q hq).1, fun hl => ?_⟩
      rw [str_equal_clean _ FILE hFnul]
      simpa using (hpre q hq).2 hl
  have hDl : DIR.length ≠ 0 := by simpa using hD
  have hFl : FILE.length ≠ 0 := by simpa using hF
  have hbit : bit d.attributes 4 ≠ 0 := (bit_ne_zero_iff _ _).2 hdir
  simp only [find_file_loop, find_file_step, if_neg hDl, if_neg hFl, hlook, if_pos hbit,
    find_in_dir, hread, hscan, if_pos hfc]

set_option maxRecDepth 100000 in
/-- Resolution of `\DIR\NOTE.TXT` on the demonstration volume. -/
theorem find_file_in_subdir_witness :
    find_file demo_volume ([92, 68, 73, 82] ++ [92, 78, 79, 84, 69, 46, 84, 88, 84]) 1
      = .done (some (decode_entry
          (mk_record [78, 79, 84, 69, 32, 32, 32, 32] [84, 88, 84] 0x20 5 3))) :=
  find_file_in_subdir demo_volume [68, 73, 82] [78, 79, 84, 69, 46, 84, 88, 84] 0
    (decode_entry (mk_record [68, 73, 82, 32, 32, 32, 32, 32] [32, 32, 32] 0x10 2 0))
    ((List.range 512).map (fun k => demo_image (1536 + k) % 256))
    [mk_record [46, 32, 32, 32, 32, 32, 32, 32] [32, 32, 32] 0x10 2 0,
      mk_record [46, 46, 32, 32, 32, 32, 32, 32] [32, 32, 32] 0x10 0 0]
    (mk_record [78, 79, 84, 69, 32, 32, 32, 32] [84, 88, 84] 0x20 5 3)
    (mk_record [69, 77, 80, 84, 89, 32, 32, 32] [32, 32, 32] 0x20 0 0
      :: List.replicate 12 (List.replicate 32 0))
    (by decide!) (by decide!) (by decide!) (by decide!) (by decide!) (by decide!)
    (by decide!) (by decide!) (by decide!) (by decide!) (by decide!) (by decide!) (by decide!)
    (by decide!)

set_option maxRecDepth 100000 in
/-- C4 fails on the demonstration volume: the root holds the directory `DIR`,
whose only cluster holds, before any record whose name starts with 0, the
live file entry `EMPTY` (directory bit clear, first cluster 0, size 0), and
`dir_open` lists it; but `find_file` on `\DIR\EMPTY` returns `NULL` and
`file_open` fails with `ENOENT`: the match is taken for the link back to the
root because its first cluster is 0.  The root branch has no such test: on the
volume with the empty root file `Z`, `find_file` on `\Z` returns its entry. -/
theorem find_file_empty_file_lost :
    demo_volume.root_entries.find? (fun e => clean_name e == [68, 73, 82])
        = some (decode_entry (mk_record [68, 73, 82, 32, 32, 32, 32, 32] [32, 32, 32] 0x10 2 0))
      ∧ disk_read demo_volume.disk (cluster_sector demo_volume.data_start
          demo_volume.sectors_per_cluster 2) demo_volume.sectors_per_cluster
        = .ok ((List.range 512).map (fun k => demo_image (1536 + k) % 256))
      ∧ scan_cluster (records ((List.range 512).map (fun k => demo_image (1536 + k) % 256))
          (demo_volume.bytes_per_cluster / 32)) [69, 77, 80, 84, 89]
        = .found (decode_entry
            (mk_record [69, 77, 80, 84, 89, 32, 32, 32] [32, 32, 32] 0x20 0 0))
      ∧ (decode_entry (mk_record [69, 77, 80, 84, 89, 32, 32, 32] [32, 32, 32] 0x20 0 0)
          ).attributes.testBit 4 = false
      ∧ (listing_of (dir_open demo_volume [92, 68, 73, 82] 1)).map
          (fun l => l.1.map clean_name)
        = some [[46], [46, 46], [78, 79, 84, 69, 46, 84, 88, 84], [69, 77, 80, 84, 89]]
      ∧ find_file demo_volume [92, 68, 73, 82, 92, 69, 77, 80, 84, 89] 1 = .done none
      ∧ errno_of (file_open demo_volume [92, 68, 73, 82, 92, 69, 77, 80, 84, 89] 1)
        = some .ENOENT
      ∧ find_file zero_volume [92, 90] 1
        = .done (some (decode_entry
            (mk_record [90, 32, 32, 32, 32, 32, 32, 32] [32, 32, 32] 0x20 0 0))) := by
  decide!

set_option maxRecDepth 100000 in
/-- C5 fails on the extended image: the chain of `DIR` is the single cluster 2
(its table entry is 0xFFFF), no live record of that cluster is named `X`, and
yet `find_file` on `\DIR\X` goes on to the cluster 0xFFFF named by the
end-of-chain mark and returns the record it finds there. -/
theorem find_file_missing_component_stray :
    (stray_volume.root_entries.find? (fun e => clean_name e == [68, 73, 82])).map
        (fun e => (e.attributes, e.first_cluster)) = some (0x10, 2)
      ∧ stray_volume.fat.get? 2 = some 0xFFFF
      ∧ (∀ r ∈ records ((List.range 512).map (fun k => stray_image (1536 + k) % 256)) 16,
          live_record r → clean_name (decode_entry r) ≠ [88])
      ∧ find_file stray_volume [92, 68, 73, 82, 92, 88] 2
        = .done (some (decode_entry
            (mk_record [88, 32, 32, 32, 32, 32, 32, 32] [32, 32, 32] 0x20 7 1))) := by
  decide!

theorem find_file_loop_append (pvolume : volume_t) (fuel : Nat)
    (ps qs : List (List Nat)) (cur : Option root_entry_t) :
    find_file_loop pvolume fuel cur (ps ++ qs) =
      match context_after pvolume fuel cur ps with
      | .done (.next c) => find_file_loop pvolume fuel c qs
      | .done .ret_null => .done none
      | .undefined => .undefined
      | .timeout => .timeout := by
  induction ps generalizing cur with
  | nil => rfl
  | cons p ps ih =>
    simp only [List.cons_append, find_file_loop, context_after]
    cases hstep : find_file_step pvolume fuel cur p with
    | done st =>
      cases st with
      | ret_null => rfl
      | next c => exact ih c
    | undefined => rfl
    | timeout => rfl

theorem find_file_loop_file (pvolume : volume_t) (fuel : Nat) (e : root_entry_t)
    (rest : List (List Nat)) (hfile : bit e.attributes 4 = 0)
    (hrest : ∃ p ∈ rest, p ≠ []) :
    find_file_loop pvolume fuel (some e) rest = .done none := by
  induction rest with
  | nil =>
    obtain ⟨p, hp, _⟩ := hrest
    cases hp
  | cons q qs ih =>
    by_cases hq : q.length = 0
    · have hq' : q = [] := List.length_eq_zero.mp hq
      have hrest' : ∃ p ∈ qs, p ≠ [] := by
        obtain ⟨p, hp, hne⟩ := hrest
        rcases List.mem_cons.mp hp with h | h
        · exact absurd (h.trans hq') hne
        · exact ⟨p, h, hne⟩
      simp only [find_file_loop, find_file_step, if_pos hq]
      exact ih hrest'
    · have hb : ¬ bit e.attributes 4 ≠ 0 := fun h => h hfile
      simp only [find_file_loop, find_file_step, if_neg hq, if_neg hb]

/-- A path through a file: when a component that is followed by another
non-empty component matches an entry without the directory bit, and that entry
was found in the root directory or has a starting cluster other than 0,
`find_file` returns `NULL`. -/
theorem find_file_through_file (pvolume : volume_t) (path : List Nat) (fuel : Nat)
    (pre : List (List Nat)) (part : List Nat) (rest : List (List Nat))
    (context : Option root_entry_t) (e : root_entry_t)
    (htokens : strsep_parts path = pre ++ part :: rest)
    (hctx : context_after pvolume fuel none pre = .done (.next context))
    (hpart : part ≠ [])
    (hm : component_match pvolume fuel context part e)
    (hfile : e.attributes.testBit 4 = false)
    (hkeep : context = none ∨ e.first_cluster ≠ 0)
    (hrest : ∃ p ∈ rest, p ≠ []) :
    find_file pvolume path fuel = .done none := by
  have hl : part.length ≠ 0 := by simpa using hpart
  have hb : bit e.attributes 4 = 0 := (bit_eq_zero_iff _ _).2 hfile
  have hgo := find_file_loop_file pvolume fuel e rest hb hrest
  unfold find_file
  rw [htokens, find_file_loop_append, hctx]
  simp only [find_file_loop, find_file_step, if_neg hl]
  cases context with
  | none =>
    have hm' : root_lookup pvolume.root_entries part = some e := hm
    simp only [hm']
    exact hgo
  | some cur =>
    obtain ⟨hdir, hfind⟩ := hm
    have hfc : e.first_cluster ≠ 0 := by
      rcases hkeep with h | h
      · cases h
      · exact h
    simp only [if_pos hdir, hfind, if_pos hfc]
    exact hgo

set_option maxRecDepth 100000 in
/-- The path `\FILE.TXT\X` on the demonstration volume is not found. -/
theorem find_file_through_file_witness :
    find_file demo_volume [92, 70, 73, 76, 69, 46, 84, 88, 84, 92, 88] 0 = .done none :=
  find_file_through_file demo_volume [92, 70, 73, 76, 69, 46, 84, 88, 84, 92, 88] 0
    [[]] [70, 73, 76, 69, 46, 84, 88, 84] [[88]] none
    (decode_entry (mk_record [70, 73, 76, 69, 32, 32, 32, 32] [84, 88, 84] 0x20 3 600))
    (by decide!) (by decide!) (by decide!)
    (by decide! : root_lookup demo_volume.root_entries [70, 73, 76, 69, 46, 84, 88, 84]
      = some (decode_entry
          (mk_record [70, 73, 76, 69, 32, 32, 32, 32] [84, 88, 84] 0x20 3 600)))
    (by decide!) (by decide!) (by decide!)

set_option maxRecDepth 100000 in
/-- C6 fails on the demonstration volume: in `\DIR\EMPTY\FILE.TXT` the
component `EMPTY` matches, inside the directory `DIR`, an entry without the
directory bit (a file, first cluster 0), another component follows, and
`find_file` returns the root entry `FILE.TXT` instead of `NULL`: the match is
taken for the link back to the root.  When the file is found in the root the
path is refused: on the volume with the empty root file `Z`, `find_file` on
`\Z\FILE.TXT` returns `NULL`. -/
theorem find_file_through_empty_file :
    strsep_parts [92, 68, 73, 82, 92, 69, 77, 80, 84, 89, 92, 70, 73, 76, 69, 46, 84, 88, 84]
        = [[], [68, 73, 82]] ++ [69, 77, 80, 84, 89] :: [[70, 73, 76, 69, 46, 84, 88, 84]]
      ∧ context_after demo_volume 1 none [[], [68, 73, 82]]
        = .done (.next (some (decode_entry
            (mk_record [68, 73, 82, 32, 32, 32, 32, 32] [32, 32, 32] 0x10 2 0))))
      ∧ find_in_dir demo_volume [69, 77, 80, 84, 89] 1 2
        = .done (some (decode_entry
            (mk_record [69, 77, 80, 84, 89, 32, 32, 32] [32, 32, 32] 0x20 0 0)))
      ∧ (decode_entry (mk_record [69, 77, 80, 84, 89, 32, 32, 32] [32, 32, 32] 0x20 0 0)
          ).attributes.testBit 4 = false
      ∧ find_file demo_volume
          [92, 68, 73, 82, 92, 69, 77, 80, 84, 89, 92, 70, 73, 76, 69, 46, 84, 88, 84] 1
        = .done (some (decode_entry
            (mk_record [70, 73, 76, 69, 32, 32, 32, 32] [84, 88, 84] 0x20 3 600)))
      ∧ root_lookup zero_volume.root_entries [90]
        = some (decode_entry (mk_record [90, 32, 32, 32, 32, 32, 32, 32] [32, 32, 32] 0x20 0 0))
      ∧ find_file zero_volume [92, 90, 92, 70, 73, 76, 69, 46, 84, 88, 84] 1 = .done none := by
  decide!

/-! ### Error codes of `file_open` and `dir_open` -/

theorem disk_read_error {pdisk : disk_t} {first_sector n : Nat} {e : Errno}
    (h : disk_read pdisk first_sector n = .error e) : e = .ERANGE := by
  unfold disk_read at h
  split at h
  · injection h with h
    exact h.symm
  · cases h

theorem dir_open_loop_error (pvolume : volume_t) (fuel : Nat) :
    ∀ (c : Nat) (e : Errno), dir_open_loop pvolume fuel c = .done (.error e) → e = .ERANGE := by
  induction fuel with
  | zero =>
    intro c e h
    cases h
  | succ fuel ih =>
    intro c e h
    unfold dir_open_loop at h
    simp only at h
    split at h
    · rename_i err herr
      injection h with h
      injection h with h
      subst h
      exact disk_read_error herr
    · split at h
      · cases h
      · split at h
        · cases h
        · split at h
          · cases h
          · split at h
            · cases h
            · rename_i other hne
              rw [h] at hne
              exact ih _ e h

/-- C7: let `r` be what `find_file` returns for the upper-cased path.  When
`r` is `NULL`, `file_open` fails with `ENOENT`, and so does `dir_open` for a
path other than the bare separator.  When `r` is an entry `e`, `file_open`
fails with `EISDIR` exactly when `e` has bit 3 (volume label) or bit 4
(directory) set, and `dir_open`, for a path other than the bare separator,
fails with `ENOTDIR` exactly when `e` has bit 4 clear or bit 3 set. -/
theorem open_error_codes (pvolume : volume_t) (path : List Nat) (fuel : Nat)
    (r : Option root_entry_t)
    (h : find_file pvolume (make_all_caps path) fuel = .done r) :
    (r = none →
        file_open pvolume path fuel = .done (.error .ENOENT)
          ∧ (str_equal (make_all_caps path) [92] = false →
            dir_open pvolume path fuel = .done (.error .ENOENT)))
      ∧ (∀ e, r = some e →
        (file_open pvolume path fuel = .done (.error .EISDIR)
            ↔ (e.attributes.testBit 3 = true ∨ e.attributes.testBit 4 = true))
          ∧ (str_equal (make_all_caps path) [92] = false →
            (dir_open pvolume path fuel = .done (.error .ENOTDIR)
              ↔ (e.attributes.testBit 4 = false ∨ e.attributes.testBit 3 = true)))) := by
  refine ⟨fun hr => ?_, fun e hr => ⟨?_, fun hbare => ?_⟩⟩
  · subst hr
    refine ⟨?_, fun hbare => ?_⟩
    · simp only [file_open, h]
    · simp only [dir_open, hbare, h, Bool.false_eq_true, if_false]
  · subst hr
    simp only [file_open, h]
    rw [← bit_ne_zero_iff, ← bit_ne_zero_iff]
    by_cases hb : bit e.attributes 3 ≠ 0 ∨ bit e.attributes 4 ≠ 0
    · rw [if_pos hb]
      exact ⟨fun _ => hb, fun _ => rfl⟩
    · rw [if_neg hb]
      refine ⟨fun hc => ?_, fun hc => absurd hc hb⟩
      cases hch : build_chain pvolume fuel e.first_cluster <;> rw [hch] at hc <;> cases hc
  · subst hr
    simp only [dir_open, hbare, h, Bool.false_eq_true, if_false]
    rw [← bit_eq_zero_iff, ← bit_ne_zero_iff]
    by_cases hb : bit e.attributes 4 = 0 ∨ bit e.attributes 3 ≠ 0
    · rw [if_pos hb]
      exact ⟨fun _ => hb, fun _ => rfl⟩
    · rw [if_neg hb]
      refine ⟨fun hc => ?_, fun hc => absurd hc hb⟩
      cases hl : dir_open_loop pvolume fuel e.first_cluster with
      | done x =>
        rw [hl] at hc
        cases x with
        | error err =>
          have herr := dir_open_loop_error pvolume fuel _ err hl
          subst herr
          simp only at hc
          injection hc with hc
          injection hc with hc
          cases hc
        | ok es => cases hc
      | undefined => rw [hl] at hc; cases hc
      | timeout => rw [hl] at hc; cases hc

set_option maxRecDepth 100000 in
/-- C7 on the demonstration volume: `\dir` resolves to a directory entry, so
`file_open` fails with `EISDIR`. -/
theorem open_error_codes_witness :
    find_file demo_volume (make_all_caps [92, 100, 105, 114]) 1
        = .done (some (decode_entry
            (mk_record [68, 73, 82, 32, 32, 32, 32, 32] [32, 32, 32] 0x10 2 0)))
      ∧ file_open demo_volume [92, 100, 105, 114] 1 = .done (.error .EISDIR) :=
  ⟨by decide!,
    (((open_error_codes demo_volume [92, 100, 105, 114] 1 _ (by decide!)).2
      (decode_entry (mk_record [68, 73, 82, 32, 32, 32, 32, 32] [32, 32, 32] 0x10 2 0))
      rfl).1).2 (Or.inr (by decide!))⟩

/-! ### Cluster chains -/

theorem cluster_sector_ge_two (data_start spc c : Nat) (hc : 2 ≤ c) :
    cluster_sector data_start spc c = (data_start + (c - 2) * spc) % 2 ^ 32 := by
  unfold cluster_sector
  have h : ((data_start : Int) + ((c : Int) - 2) * (spc : Int))
      = ((data_start + (c - 2) * spc : Nat) : Int) := by
    push_cast [Nat.cast_sub hc]
    ring
  rw [h]
  norm_cast

theorem fat_iter_shift (fat : List Nat) (c : Nat) (k : Nat) :
    fat_iter fat c (k + 1) = fat_iter fat (fat.getD c 0) k := by
  induction k with
  | zero => rfl
  | succ k ih =>
    show fat.getD (fat_iter fat c (k + 1)) 0 = fat.getD (fat_iter fat (fat.getD c 0) k) 0
    rw [ih]

theorem get?_of_lt (fat : List Nat) (c : Nat) (h : c < fat.length) :
    fat.get? c = some (fat.getD c 0) := by
  simp [List.getD_eq_getElem?_getD, List.getElem?_eq_getElem h]

theorem build_chain_spec (pvolume : volume_t) (n : Nat) :
    ∀ (fuel c : Nat), n + 1 ≤ fuel →
      (∀ k ≤ n, fat_iter pvolume.fat c k < pvolume.fat.length) →
      (∀ k, 1 ≤ k → k ≤ n → fat_iter pvolume.fat c k < 0xFFF8) →
      fat_iter pvolume.fat c (n + 1) ≥ 0xFFF8 →
      build_chain pvolume fuel c = .done ((List.range n).map (fun k =>
        { number := fat_iter pvolume.fat c (k + 1)
          sector := cluster_sector pvolume.data_start pvolume.sectors_per_cluster
            (fat_iter pvolume.fat c (k + 1)) })) := by
  induction n with
  | zero =>
    intro fuel c hfuel hin _ hend
    obtain ⟨fuel, rfl⟩ : ∃ f, fuel = f + 1 := ⟨fuel - 1, by omega⟩
    have h0 : c < pvolume.fat.length := hin 0 (le_refl 0)
    have hend' : pvolume.fat.getD c 0 ≥ 0xFFF8 := hend
    simp only [build_chain, get?_of_lt _ _ h0, if_pos hend']
    rfl
  | succ n ih =>
    intro fuel c hfuel hin hlink hend
    obtain ⟨fuel, rfl⟩ : ∃ f, fuel = f + 1 := ⟨fuel - 1, by omega⟩
    have h0 : c < pvolume.fat.length := hin 0 (Nat.zero_le _)
    have h1 : ¬ pvolume.fat.getD c 0 ≥ 0xFFF8 := by
      have := hlink 1 (le_refl 1) (by omega)
      have h1' : fat_iter pvolume.fat c 1 = pvolume.fat.getD c 0 := rfl
      omega
    have hrec := ih fuel (pvolume.fat.getD c 0) (by omega)
      (fun k hk => by rw [← fat_iter_shift]; exact hin (k + 1) (by omega))
      (fun k hk1 hk => by rw [← fat_iter_shift]; exact hlink (k + 1) (by omega) (by omega))
      (by rw [← fat_iter_shift]; exact hend)
    simp only [build_chain, get?_of_lt _ _ h0, if_neg h1, hrec]
    rw [List.range_succ_eq_map]
    simp only [List.map_cons, List.map_map]
    congr 2
    apply List.map_congr_left
    intro k _
    simp only [Function.comp, fat_iter_shift pvolume.fat c (k + 1)]

/-- C8, with the sector taken in 32 bits: when the table, followed from the
starting cluster `c0` of the entry that `file_open` resolves, reaches a value
`≥ 0xFFF8` after `n + 1` steps through indices inside the table, `file_open`
returns a handle whose chain is `c0, fat[c0], ...` up to but excluding that
value; the chain is not empty, and every element `c ≥ 2` is paired with the
sector `(data_start + (c - 2) * sectors_per_cluster) mod 2^32`. -/
theorem file_open_chain (pvolume : volume_t) (path : List Nat) (fuel : Nat)
    (entry : root_entry_t) (n : Nat)
    (hfind : find_file pvolume (make_all_caps path) fuel = .done (some entry))
    (hfile : entry.attributes.testBit 3 = false ∧ entry.attributes.testBit 4 = false)
    (hin : ∀ k ≤ n, fat_iter pvolume.fat entry.first_cluster k < pvolume.fat.length)
    (hlink : ∀ k, 1 ≤ k → k ≤ n → fat_iter pvolume.fat entry.first_cluster k < 0xFFF8)
    (hend : fat_iter pvolume.fat entry.first_cluster (n + 1) ≥ 0xFFF8)
    (hfuel : n + 1 ≤ fuel) :
    ∃ f, file_open pvolume path fuel = .done (.ok f)
      ∧ f.clusters.map (fun cl => cl.number)
        = (List.range (n + 1)).map (fat_iter pvolume.fat entry.first_cluster)
      ∧ f.clusters ≠ []
      ∧ ∀ cl ∈ f.clusters, 2 ≤ cl.number →
          cl.sector = (pvolume.data_start + (cl.number - 2) * pvolume.sectors_per_cluster)
            % 2 ^ 32 := by
  have hb : ¬ (bit entry.attributes 3 ≠ 0 ∨ bit entry.attributes 4 ≠ 0) := by
    rw [bit_ne_zero_iff, bit_ne_zero_iff, hfile.1, hfile.2]
    simp
  have hchain := build_chain_spec pvolume n fuel entry.first_cluster hfuel hin hlink hend
  have hopen : file_open pvolume path fuel = .done (.ok
      { name := c_str (clean_file_name entry.name entry.ext)
        attributes := entry.attributes
        size := entry.size % 2 ^ 16
        read_head := 0
        clusters :=
          { number := entry.first_cluster
            sector := cluster_sector pvolume.data_start pvolume.sectors_per_cluster
              entry.first_cluster } ::
          (List.range n).map (fun k =>
            { number := fat_iter pvolume.fat entry.first_cluster (k + 1)
              sector := cluster_sector pvolume.data_start pvolume.sectors_per_cluster
                (fat_iter pvolume.fat entry.first_cluster (k + 1)) })
        volume := pvolume }) := by
    simp only [file_open, hfind, if_neg hb, hchain]
  refine ⟨_, hopen, ?_, by simp, ?_⟩
  · rw [List.range_succ_eq_map]
    simp only [List.map_cons, List.map_map]
    congr 1
  · intro cl hcl hc
    simp only [List.mem_cons, List.mem_map, List.mem_range] at hcl
    rcases hcl with h | ⟨k, _, h⟩
    · subst h
      exact cluster_sector_ge_two _ _ _ hc
    · subst h
      exact cluster_sector_ge_two _ _ _ hc

set_option maxRecDepth 100000 in
/-- C8 on the demonstration volume: the chain of `\FILE.TXT` is 3, 4. -/
theorem file_open_chain_witness :
    ∃ f, file_open demo_volume [92, 70, 73, 76, 69, 46, 84, 88, 84] 2 = .done (.ok f)
      ∧ f.clusters.map (fun cl => cl.number)
        = (List.range (1 + 1)).map (fat_iter demo_volume.fat
            (decode_entry (mk_record [70, 73, 76, 69, 32, 32, 32, 32] [84, 88, 84] 0x20 3 600)
              ).first_cluster)
      ∧ f.clusters ≠ []
      ∧ ∀ cl ∈ f.clusters, 2 ≤ cl.number →
          cl.sector = (demo_volume.data_start
            + (cl.number - 2) * demo_volume.sectors_per_cluster) % 2 ^ 32 :=
  file_open_chain demo_volume [92, 70, 73, 76, 69, 46, 84, 88, 84] 2
    (decode_entry (mk_record [70, 73, 76, 69, 32, 32, 32, 32] [84, 88, 84] 0x20 3 600)) 1
    (by decide!) (by decide!) (by decide!) (by decide!) (by decide!) (by decide!)

set_option maxRecDepth 100000 in
/-- C8 as stated fails on the image whose boot sector has
`hidden_sectors = 0xFFFFFFFC`: `data_start` is `0xFFFFFFFF`, the chain of
`\FILE.TXT` is 3, 4, and its elements are paired with the sectors 0 and 1,
while `data_start + (c - 2) * sectors_per_cluster` is 4294967296 and
4294967297. -/
theorem file_open_chain_counterexample :
    wrap_volume.data_start = 4294967295
      ∧ wrap_volume.sectors_per_cluster = 1
      ∧ clusters_of (file_open wrap_volume [92, 70, 73, 76, 69, 46, 84, 88, 84] 2)
        = some [{ number := 3, sector := 0 }, { number := 4, sector := 1 }]
      ∧ wrap_volume.data_start + (3 - 2) * wrap_volume.sectors_per_cluster = 4294967296
      ∧ wrap_volume.data_start + (4 - 2) * wrap_volume.sectors_per_cluster = 4294967297 := by
  decide!

/-! ### Reading a file -/

theorem file_open_fields (pvolume : volume_t) (file_name : List Nat) (fuel : Nat)
    (f : file_t) (h : file_open pvolume file_name fuel = .done (.ok f)) :
    ∃ entry, find_file pvolume (make_all_caps file_name) fuel = .done (some entry)
      ∧ f.size = entry.size % 2 ^ 16 ∧ f.read_head = 0 := by
  unfold file_open at h
  simp only at h
  split at h
  · cases h
  · cases h
  · cases h
  · rename_i entry hfind
    split at h
    · cases h
    · split at h
      · cases h
      · cases h
      · injection h with h
        injection h with h
        subst h
        exact ⟨entry, hfind, rfl, rfl⟩

set_option maxRecDepth 100000 in
/-- C11 fails on the volume with `BIG.BIN`: the root entry declares 70000
bytes, `file_open` accepts it, and the handle's size is 70000 mod 65536 = 4464
(the cursor is 0). -/
theorem file_open_size_truncated :
    (root_lookup extra_volume.root_entries [66, 73, 71, 46, 66, 73, 78]).map
        (fun e => (e.attributes, e.size)) = some (0x20, 70000)
      ∧ size_and_cursor (file_open extra_volume [92, 66, 73, 71, 46, 66, 73, 78] 2)
        = some (4464, 0) := by
  decide!

theorem toNat_emod_cast (t : Int) (h0 : 0 ≤ t) (h1 : t < 65536) :
    (((t % 65536).toNat : Nat) : Int) = t := by
  rw [Int.emod_eq_of_lt h0 h1, Int.toNat_of_nonneg h0]

/-- What `file_seek` does when the sum it forms does not overflow: a target
above `size` is refused with `ENXIO` and the cursor stays; a target in
`0 .. size` becomes the cursor and is returned. -/
theorem file_seek_targets (stream : file_t) (offset whence : Int)
    (hs : stream.size < 2 ^ 16)
    (hw : whence = SEEK_SET ∨ whence = SEEK_CUR ∨ whence = SEEK_END)
    (hno : seek_target stream offset whence ≤ INT_MAX) :
    (seek_target stream offset whence > stream.size →
        file_seek stream offset whence
          = .done { ret := -1, err := some .ENXIO_, stream := stream })
      ∧ (0 ≤ seek_target stream offset whence
          → seek_target stream offset whence ≤ stream.size →
        file_seek stream offset whence
          = .done { ret := seek_target stream offset whence
                    err := none
                    stream := { stream with
                      read_head := (seek_target stream offset whence).toNat } }) := by
  have hvalid : ¬ (whence ≠ SEEK_SET ∧ whence ≠ SEEK_CUR ∧ whence ≠ SEEK_END) := by
    rcases hw with h | h | h <;> simp [h, SEEK_SET, SEEK_CUR, SEEK_END]
  unfold file_seek
  rw [if_neg hvalid]
  rcases hw with h | h | h
  · have ht : seek_target stream offset whence = offset := by
      simp [seek_target, h]
    rw [ht] at hno ⊢
    rw [if_pos h]
    refine ⟨fun hgt => ?_, fun h0 hle => ?_⟩
    · rw [if_pos hgt]
    · rw [if_neg (by omega)]
      have hc := toNat_emod_cast offset h0 (by omega)
      have hn : (offset % 65536).toNat = offset.toNat := by omega
      rw [hc, hn]
  · have hne : ¬ whence = SEEK_SET := by simp [h, SEEK_SET, SEEK_CUR]
    have hne2 : ¬ whence = SEEK_END := by simp [h, SEEK_END, SEEK_CUR]
    have ht : seek_target stream offset whence = (stream.read_head : Int) + offset := by
      simp [seek_target, h, SEEK_SET, SEEK_CUR]
    rw [ht] at hno ⊢
    rw [if_neg hne, if_neg hne2]
    refine ⟨fun hgt => ?_, fun h0 hle => ?_⟩
    · rw [if_neg (by omega), if_pos hgt]
    · rw [if_neg (by omega), if_neg (by omega)]
      have hc := toNat_emod_cast ((stream.read_head : Int) + offset) h0 (by omega)
      have hn : (((stream.read_head : Int) + offset) % 65536).toNat
          = ((stream.read_head : Int) + offset).toNat := by omega
      rw [hc, hn]
  · have hne : ¬ whence = SEEK_SET := by simp [h, SEEK_SET, SEEK_END]
    have ht : seek_target stream offset whence = (stream.size : Int) + offset := by
      simp [seek_target, h, SEEK_SET, SEEK_CUR, SEEK_END]
    rw [ht] at hno ⊢
    rw [if_neg hne, if_pos h]
    refine ⟨fun hgt => ?_, fun h0 hle => ?_⟩
    · rw [if_neg (by omega), if_pos hgt]
    · rw [if_neg (by omega), if_neg (by omega)]
      have hc := toNat_emod_cast ((stream.size : Int) + offset) h0 (by omega)
      have hn : (((stream.size : Int) + offset) % 65536).toNat
          = ((stream.size : Int) + offset).toNat := by omega
      rw [hc, hn]

set_option maxRecDepth 100000 in
/-- C12 fails for offsets near the largest `int`: with the cursor of
`\FILE.TXT` at 2 and the offset 2147483647, `SEEK_CUR` asks for the target
2147483649, which is above the size 600, but the sum
`stream->read_head + offset` overflows a signed `int`, so the call has no
defined result instead of returning -1. -/
theorem file_seek_overflow :
    demo_file_mid.read_head = 2 ∧ demo_file_mid.size = 600
      ∧ seek_target demo_file_mid 2147483647 SEEK_CUR = 2147483649
      ∧ run_undefined (file_seek demo_file_mid 2147483647 SEEK_CUR) = true := by
  decide!

set_option maxRecDepth 100000 in
/-- C13 fails on the handle that `file_open` returns for `\FILE.TXT` (size
600, cursor 0): `file_seek` with `SEEK_SET` and offset -1 does not fail, it
returns 65535 and leaves the cursor at 65535, above the size; so do
`SEEK_END` with offset -601 and `SEEK_CUR` with offset -1. -/
theorem file_seek_negative_target :
    size_and_cursor (file_open demo_volume [92, 70, 73, 76, 69, 46, 84, 88, 84] 2)
        = some (600, 0)
      ∧ seek_outcome (file_seek
          (opened_file demo_file (file_open demo_volume [92, 70, 73, 76, 69, 46, 84, 88, 84] 2))
          (-1) SEEK_SET) = some (65535, none, 65535)
      ∧ seek_outcome (file_seek
          (opened_file demo_file (file_open demo_volume [92, 70, 73, 76, 69, 46, 84, 88, 84] 2))
          (-601) SEEK_END) = some (65535, none, 65535)
      ∧ seek_outcome (file_seek
          (opened_file demo_file (file_open demo_volume [92, 70, 73, 76, 69, 46, 84, 88, 84] 2))
          (-1) SEEK_CUR) = some (65535, none, 65535) := by
  decide!

/-! ### Enumerating a directory -/

theorem bit_bne_zero (a k : Nat) : (bit a k != 0) = a.testBit k := by
  cases h : a.testBit k with
  | true =>
    have := (bit_ne_zero_iff a k).2 h
    simpa using this
  | false =>
    have := (bit_eq_zero_iff a k).2 h
    simp [this]

theorem dir_read_next (pdir : dir_t) (entry : root_entry_t)
    (hn : pdir.entries_n < 2 ^ 16) (hlt : pdir.read_head < pdir.entries_n)
    (hget : pdir.entries.get? pdir.read_head = some entry) :
    dir_read pdir = .done
      { ret := 0, err := none, pentry := some (entry_view entry)
        pdir := { pdir with read_head := pdir.read_head + 1 } } := by
  have hne : pdir.entries.isEmpty = false := by
    cases he : pdir.entries with
    | nil => rw [he] at hget; simp at hget
    | cons x xs => rfl
  have hmod : (pdir.read_head + 1) % 2 ^ 16 = pdir.read_head + 1 := by omega
  simp only [dir_read, hne, Bool.false_eq_true, if_false, if_neg (Nat.ne_of_lt hlt), hget, hmod,
    bit_bne_zero, entry_view, clean_name]

theorem dir_read_end (pdir : dir_t) (hne : pdir.entries ≠ [])
    (hend : pdir.read_head = pdir.entries_n) :
    dir_read pdir = .done { ret := 1, err := none, pentry := none, pdir := pdir } := by
  have hne' : pdir.entries.isEmpty = false := by
    cases he : pdir.entries with
    | nil => exact absurd he hne
    | cons x xs => rfl
  simp only [dir_read, hne', Bool.false_eq_true, if_false, if_pos hend]

theorem dir_read_calls_end (pdir : dir_t) (hne : pdir.entries ≠ [])
    (hend : pdir.read_head = pdir.entries_n) (k : Nat) :
    dir_read_calls k pdir = some (List.replicate k (1, none), pdir) := by
  induction k with
  | zero => rfl
  | succ k ih =>
    simp only [dir_read_calls, dir_read_end pdir hne hend, ih, Option.map_some',
      List.replicate_succ]

theorem dir_read_calls_from (m : Nat) :
    ∀ (pdir : dir_t), pdir.entries ≠ [] → pdir.entries_n = pdir.entries.length →
      pdir.entries_n < 2 ^ 16 → pdir.read_head + m = pdir.entries_n →
      ∀ k, dir_read_calls (m + k) pdir
        = some (((pdir.entries.drop pdir.read_head).map (fun e => ((0 : Int), some (entry_view e))))
            ++ List.replicate k (1, none),
          { pdir with read_head := pdir.entries_n }) := by
  induction m with
  | zero =>
    intro pdir hne hlen hn hm k
    have hend : pdir.read_head = pdir.entries_n := by omega
    rw [Nat.zero_add, dir_read_calls_end pdir hne hend k]
    have hdrop : pdir.entries.drop pdir.read_head = [] := by
      rw [List.drop_eq_nil_iff]
      omega
    rw [hdrop]
    obtain ⟨entries, entries_n, read_head, volume⟩ := pdir
    simp only at hend
    subst hend
    rfl
  | succ m ih =>
    intro pdir hne hlen hn hm k
    have hlt : pdir.read_head < pdir.entries.length := by omega
    have hget : pdir.entries.get? pdir.read_head = some (pdir.entries[pdir.read_head]) := by
      simp [List.getElem?_eq_getElem hlt]
    have hstep := dir_read_next pdir _ hn (by omega) hget
    have hrec := ih { pdir with read_head := pdir.read_head + 1 } hne hlen hn
      (by show pdir.read_head + 1 + m = pdir.entries_n; omega) k
    have hk : m + 1 + k = (m + k) + 1 := by omega
    rw [hk]
    simp only [dir_read_calls, hstep, hrec, Option.map_some']
    rw [List.drop_eq_getElem_cons hlt]
    rfl

/-- C15 for handles with at least one entry: for a directory handle with
`n ≥ 1` entries and cursor 0, the first `n` calls of `dir_read` return 0 and
deliver the views of the entries in list order (cleaned name, size, flags from
attribute bits 0, 1, 2, 5, `is_directory` exactly when the size is 0), each
advancing the cursor by one; every later call returns 1 and leaves the cursor
at `n`. -/
theorem dir_read_enumerates (pdir : dir_t) (k : Nat)
    (hne : pdir.entries ≠ []) (hlen : pdir.entries_n = pdir.entries.length)
    (hn : pdir.entries_n < 2 ^ 16) (h0 : pdir.read_head = 0) :
    dir_read_calls (pdir.entries_n + k) pdir
      = some ((pdir.entries.map (fun e => ((0 : Int), some (entry_view e))))
          ++ List.replicate k (1, none),
        { pdir with read_head := pdir.entries_n }) := by
  have h := dir_read_calls_from pdir.entries_n pdir hne hlen hn (by omega) k
  rw [h, h0]
  rfl

set_option maxRecDepth 100000 in
/-- C15 on the root directory of the demonstration volume: two entries, then
end of directory. -/
theorem dir_read_enumerates_witness :
    dir_read_calls (demo_root_dir.entries_n + 2) demo_root_dir
      = some ((demo_root_dir.entries.map (fun e => ((0 : Int), some (entry_view e))))
          ++ List.replicate 2 (1, none),
        { demo_root_dir with read_head := demo_root_dir.entries_n }) :=
  dir_read_enumerates demo_root_dir 2 (by decide!) (by decide!) (by decide!) (by decide!)

set_option maxRecDepth 100000 in
/-- C15 as stated fails for a directory without entries: `dir_open` returns
for `\SUB` a handle with no entry and count 0, and `dir_read` on such a handle
returns -1 with `EIO`, not 1. -/
theorem dir_read_enumerates_counterexample :
    listing_of (dir_open extra_volume [92, 83, 85, 66] 2) = some ([], 0)
      ∧ dir_read_outcome (dir_read empty_dir) = some (-1, some .EIO_, none) := by
  decide!


/-! ### Name cleaning -/

theorem beq_false_of_ne {a b : Nat} (h : ¬ a = b) : (a == b) = false := by simpa using h

theorem bne_true_of_ne {a b : Nat} (h : ¬ a = b) : (a != b) = true := by simpa using h

theorem clean_file_name_no_ext (name ext : List Nat) (hlen : name.length = 8)
    (hnz : ∀ b ∈ name, b ≠ 0) (hext : ext.getD 0 0 = 32) :
    c_str (clean_file_name name ext) = cut_at_space name := by
  match name, hlen with
  | [a0, a1, a2, a3, a4, a5, a6, a7], _ =>
    simp only [List.mem_cons, List.mem_singleton, forall_eq_or_imp, forall_eq, List.not_mem_nil,
      false_implies, implies_true, and_true] at hnz
    obtain ⟨z0, z1, z2, z3, z4, z5, z6, z7⟩ := hnz
    have y0 := bne_true_of_ne z0
    have y1 := bne_true_of_ne z1
    have y2 := bne_true_of_ne z2
    have y3 := bne_true_of_ne z3
    have y4 := bne_true_of_ne z4
    have y5 := bne_true_of_ne z5
    have y6 := bne_true_of_ne z6
    have y7 := bne_true_of_ne z7
    simp only [clean_file_name, hext, if_true, memcpy_at, cut_at_space, c_str]
    by_cases h0 : a0 = 32
    · subst h0
      simp [List.findIdx_cons, List.takeWhile]
    have e0 := beq_false_of_ne h0
    have n0 := bne_true_of_ne h0
    by_cases h1 : a1 = 32
    · subst h1
      simp [List.findIdx_cons, List.takeWhile, e0, n0, y0]
    have e1 := beq_false_of_ne h1
    have n1 := bne_true_of_ne h1
    by_cases h2 : a2 = 32
    · subst h2
      simp [List.findIdx_cons, List.takeWhile, e0, n0, y0, e1, n1, y1]
    have e2 := beq_false_of_ne h2
    have n2 := bne_true_of_ne h2
    by_cases h3 : a3 = 32
    · subst h3
      simp [List.findIdx_cons, List.takeWhile, e0, n0, y0, e1, n1, y1, e2, n2, y2]
    have e3 := beq_false_of_ne h3
    have n3 := bne_true_of_ne h3
    by_cases h4 : a4 = 32
    · subst h4
      simp [List.findIdx_cons, List.takeWhile, e0, n0, y0, e1, n1, y1, e2, n2, y2, e3, n3, y3]
    have e4 := beq_false_of_ne h4
    have n4 := bne_true_of_ne h4
    by_cases h5 : a5 = 32
    · subst h5
      simp [List.findIdx_cons, List.takeWhile, e0, n0, y0, e1, n1, y1, e2, n2, y2, e3, n3, y3, e4, n4, y4]
    have e5 := beq_false_of_ne h5
    have n5 := bne_true_of_ne h5
    by_cases h6 : a6 = 32
    · subst h6
      simp [List.findIdx_cons, List.takeWhile, e0, n0, y0, e1, n1, y1, e2, n2, y2, e3, n3, y3, e4, n4, y4, e5, n5, y5]
    have e6 := beq_false_of_ne h6
    have n6 := bne_true_of_ne h6
    by_cases h7 : a7 = 32
    · subst h7
      simp [List.findIdx_cons, List.takeWhile, e0, n0, y0, e1, n1, y1, e2, n2, y2, e3, n3, y3, e4, n4, y4, e5, n5, y5, e6, n6, y6]
    have e7 := beq_false_of_ne h7
    have n7 := bne_true_of_ne h7
    simp [List.findIdx_cons, List.takeWhile, e0, n0, y0, e1, n1, y1, e2, n2, y2, e3, n3, y3, e4, n4, y4, e5, n5, y5, e6, n6, y6, e7, n7, y7]

set_option maxHeartbeats 4000000 in
theorem clean_file_name_with_ext (name ext : List Nat) (hlen : name.length = 8) (hel : ext.length = 3)
    (hnz : ∀ b ∈ name, b ≠ 0) (hez : ∀ b ∈ ext, b ≠ 0) (hext : ext.getD 0 0 ≠ 32)
    (hprov : 32 ∈ ext ∨ ∀ b ∈ name.dropWhile (fun c => c != 32), b = 32) :
    c_str (clean_file_name name ext) = cut_at_space name ++ [46] ++ cut_at_space ext := by
  match name, hlen, ext, hel with
  | [a0, a1, a2, a3, a4, a5, a6, a7], _, [x0, x1, x2], _ =>
    simp only [List.mem_cons, List.mem_singleton, forall_eq_or_imp, forall_eq, List.not_mem_nil,
      false_implies, implies_true, and_true] at hnz hez
    obtain ⟨z0, z1, z2, z3, z4, z5, z6, z7⟩ := hnz
    obtain ⟨w0, w1, w2⟩ := hez
    have hx0 : ¬ x0 = 32 := by simpa using hext
    have f0 := beq_false_of_ne hx0
    have m0 := bne_true_of_ne hx0
    have v0 := bne_true_of_ne w0
    have v1 := bne_true_of_ne w1
    have v2 := bne_true_of_ne w2
    have y0 := bne_true_of_ne z0
    have y1 := bne_true_of_ne z1
    have y2 := bne_true_of_ne z2
    have y3 := bne_true_of_ne z3
    have y4 := bne_true_of_ne z4
    have y5 := bne_true_of_ne z5
    have y6 := bne_true_of_ne z6
    have y7 := bne_true_of_ne z7
    simp only [clean_file_name, memcpy_at, cut_at_space, c_str]
    rw [if_neg (by simpa using hext)]
    by_cases h0 : a0 = 32
    · subst h0
      by_cases g1 : x1 = 32
      · subst g1
        simp [List.findIdx_cons, List.takeWhile, List.dropWhile, f0, m0, v0, v1, v2]
      have f1 := beq_false_of_ne g1
      have m1 := bne_true_of_ne g1
      by_cases g2 : x2 = 32
      · subst g2
        simp [List.findIdx_cons, List.takeWhile, List.dropWhile, f0, m0, v0, v1, v2, f1, m1]
      have f2 := beq_false_of_ne g2
      have m2 := bne_true_of_ne g2
      simp [List.findIdx_cons, List.takeWhile, List.dropWhile, f0, m0, v0, v1, v2, f1, m1, f2, m2, hx0, g1, g2, Ne.symm hx0, Ne.symm g1, Ne.symm g2] at hprov
      obtain ⟨r0, r1, r2, r3, r4, r5, r6⟩ := hprov
      subst r0 r1 r2 r3 r4 r5 r6
      simp [List.findIdx_cons, List.takeWhile, List.dropWhile, f0, m0, v0, v1, v2, f1, m1, f2, m2]
    have e0 := beq_false_of_ne h0
    have n0 := bne_true_of_ne h0
    by_cases h1 : a1 = 32
    · subst h1
      by_cases g1 : x1 = 32
      · subst g1
        simp [List.findIdx_cons, List.takeWhile, List.dropWhile, f0, m0, v0, v1, v2, e0, n0, y0]
      have f1 := beq_false_of_ne g1
      have m1 := bne_true_of_ne g1
      by_cases g2 : x2 = 32
      · subst g2
        simp [List.findIdx_cons, List.takeWhile, List.dropWhile, f0, m0, v0, v1, v2, e0, n0, y0, f1, m1]
      have f2 := beq_false_of_ne g2
      have m2 := bne_true_of_ne g2
      simp [List.findIdx_cons, List.takeWhile, List.dropWhile, f0, m0, v0, v1, v2, e0, n0, y0, f1, m1, f2, m2, hx0, g1, g2, Ne.symm hx0, Ne.symm g1, Ne.symm g2] at hprov
      obtain ⟨r0, r1, r2, r3, r4, r5⟩ := hprov
      subst r0 r1 r2 r3 r4 r5
      simp [List.findIdx_cons, List.takeWhile, List.dropWhile, f0, m0, v0, v1, v2, e0, n0, y0, f1, m1, f2, m2]
    have e1 := beq_false_of_ne h1
    have n1 := bne_true_of_ne h1
    by_cases h2 : a2 = 32
    · subst h2
      by_cases g1 : x1 = 32
      · subst g1
        simp [List.findIdx_cons, List.takeWhile, List.dropWhile, f0, m0, v0, v1, v2, e0, n0, y0, e1, n1, y1]
      have f1 := beq_false_of_ne g1
      have m1 := bne_true_of_ne g1
      by_cases g2 : x2 = 32
      · subst g2
        simp [List.findIdx_cons, List.takeWhile, List.dropWhile, f0, m0, v0, v1, v2, e0, n0, y0, e1, n1, y1, f1, m1]
      have f2 := beq_false_of_ne g2
      have m2 := bne_true_of_ne g2
      simp [List.findIdx_cons, List.takeWhile, List.dropWhile, f0, m0, v0, v1, v2, e0, n0, y0, e1, n1, y1, f1, m1, f2, m2, hx0, g1, g2, Ne.symm hx0, Ne.symm g1, Ne.symm g2] at hprov
      obtain ⟨r0, r1, r2, r3, r4⟩ := hprov
      subst r0 r1 r2 r3 r4
      simp [List.findIdx_cons, List.takeWhile, List.dropWhile, f0, m0, v0, v1, v2, e0, n0, y0, e1, n1, y1, f1, m1, f2, m2]
    have e2 := beq_false_of_ne h2
    have n2 := bne_true_of_ne h2
    by_cases h3 : a3 = 32
    · subst h3
      by_cases g1 : x1 = 32
      · subst g1
        simp [List.findIdx_cons, List.takeWhile, List.dropWhile, f0, m0, v0, v1, v2, e0, n0, y0, e1, n1, y1, e2, n2, y2]
      have f1 := beq_false_of_ne g1
      have m1 := bne_true_of_ne g1
      by_cases g2 : x2 = 32
      · subst g2
        simp [List.findIdx_cons, List.takeWhile, List.dropWhile, f0, m0, v0, v1, v2, e0, n0, y0, e1, n1, y1, e2, n2, y2, f1, m1]
      have f2 := beq_false_of_ne g2
      have m2 := bne_true_of_ne g2
      simp [List.findIdx_cons, List.takeWhile, List.dropWhile, f0, m0, v0, v1, v2, e0, n0, y0, e1, n1, y1, e2, n2, y2, f1, m1, f2, m2, hx0, g1, g2, Ne.symm hx0, Ne.symm g1, Ne.symm g2] at hprov
      obtain ⟨r0, r1, r2, r3⟩ := hprov
      subst r0 r1 r2 r3
      simp [List.findIdx_cons, List.takeWhile, List.dropWhile, f0, m0, v0, v1, v2, e0, n0, y0, e1, n1, y1, e2, n2, y2, f1, m1, f2, m2]
    have e3 := beq_false_of_ne h3
    have n3 := bne_true_of_ne h3
    by_cases h4 : a4 = 32
    · subst h4
      by_cases g1 : x1 = 32
      · subst g1
        simp [List.findIdx_cons, List.takeWhile, List.dropWhile, f0, m0, v0, v1, v2, e0, n0, y0, e1, n1, y1, e2, n2, y2, e3, n3, y3]
      have f1 := beq_false_of_ne g1
      have m1 := bne_true_of_ne g1
      by_cases g2 : x2 = 32
      · subst g2
        simp [List.findIdx_cons, List.takeWhile, List.dropWhile, f0, m0, v0, v1, v2, e0, n0, y0, e1, n1, y1, e2, n2, y2, e3, n3, y3, f1, m1]
      have f2 := beq_false_of_ne g2
      have m2 := bne_true_of_ne g2
      simp [List.findIdx_cons, List.takeWhile, List.dropWhile, f0, m0, v0, v1, v2, e0, n0, y0, e1, n1, y1, e2, n2, y2, e3, n3, y3, f1, m1, f2, m2, hx0, g1, g2, Ne.symm hx0, Ne.symm g1, Ne.symm g2] at hprov
      obtain ⟨r0, r1, r2⟩ := hprov
      subst r0 r1 r2
      simp [List.findIdx_cons, List.takeWhile, List.dropWhile, f0, m0, v0, v1, v2, e0, n0, y0, e1, n1, y1, e2, n2, y2, e3, n3, y3, f1, m1, f2, m2]
    have e4 := beq_false_of_ne h4
    have n4 := bne_true_of_ne h4
    by_cases h5 : a5 = 32
    · subst h5
      by_cases g1 : x1 = 32
      · subst g1
        simp [List.findIdx_cons, List.takeWhile, List.dropWhile, f0, m0, v0, v1, v2, e0, n0, y0, e1, n1, y1, e2, n2, y2, e3, n3, y3, e4, n4, y4]
      have f1 := beq_false_of_ne g1
      have m1 := bne_true_of_ne g1
      by_cases g2 : x2 = 32
      · subst g2
        simp [List.findIdx_cons, List.takeWhile, List.dropWhile, f0, m0, v0, v1, v2, e0, n0, y0, e1, n1, y1, e2, n2, y2, e3, n3, y3, e4, n4, y4, f1, m1]
      have f2 := beq_false_of_ne g2
      have m2 := bne_true_of_ne g2
      simp [List.findIdx_cons, List.takeWhile, List.dropWhile, f0, m0, v0, v1, v2, e0, n0, y0, e1, n1, y1, e2, n2, y2, e3, n3, y3, e4, n4, y4, f1, m1, f2, m2, hx0, g1, g2, Ne.symm hx0, Ne.symm g1, Ne.symm g2] at hprov
      obtain ⟨r0, r1⟩ := hprov
      subst r0 r1
      simp [List.findIdx_cons, List.takeWhile, List.dropWhile, f0, m0, v0, v1, v2, e0, n0, y0, e1, n1, y1, e2, n2, y2, e3, n3, y3, e4, n4, y4, f1, m1, f2, m2]
    have e5 := beq_false_of_ne h5
    have n5 := bne_true_of_ne h5
    by_cases h6 : a6 = 32
    · subst h6
      by_cases g1 : x1 = 32
      · subst g1
        simp [List.findIdx_cons, List.takeWhile, List.dropWhile, f0, m0, v0, v1, v2, e0, n0, y0, e1, n1, y1, e2, n2, y2, e3, n3, y3, e4, n4, y4, e5, n5, y5]
      have f1 := beq_false_of_ne g1
      have m1 := bne_true_of_ne g1
      by_cases g2 : x2 = 32
      · subst g2
        simp [List.findIdx_cons, List.takeWhile, List.dropWhile, f0, m0, v0, v1, v2, e0, n0, y0, e1, n1, y1, e2, n2, y2, e3, n3, y3, e4, n4, y4, e5, n5, y5, f1, m1]
      have f2 := beq_false_of_ne g2
      have m2 := bne_true_of_ne g2
      simp [List.findIdx_cons, List.takeWhile, List.dropWhile, f0, m0, v0, v1, v2, e0, n0, y0, e1, n1, y1, e2, n2, y2, e3, n3, y3, e4, n4, y4, e5, n5, y5, f1, m1, f2, m2, hx0, g1, g2, Ne.symm hx0, Ne.symm g1, Ne.symm g2] at hprov
      subst hprov
      simp [List.findIdx_cons, List.takeWhile, List.dropWhile, f0, m0, v0, v1, v2, e0, n0, y0, e1, n1, y1, e2, n2, y2, e3, n3, y3, e4, n4, y4, e5, n5, y5, f1, m1, f2, m2]
    have e6 := beq_false_of_ne h6
    have n6 := bne_true_of_ne h6
    by_cases h7 : a7 = 32
    · subst h7
      by_cases g1 : x1 = 32
      · subst g1
        simp [List.findIdx_cons, List.takeWhile, List.dropWhile, f0, m0, v0, v1, v2, e0, n0, y0, e1, n1, y1, e2, n2, y2, e3, n3, y3, e4, n4, y4, e5, n5, y5, e6, n6, y6]
      have f1 := beq_false_of_ne g1
      have m1 := bne_true_of_ne g1
      by_cases g2 : x2 = 32
      · subst g2
        simp [List.findIdx_cons, List.takeWhile, List.dropWhile, f0, m0, v0, v1, v2, e0, n0, y0, e1, n1, y1, e2, n2, y2, e3, n3, y3, e4, n4, y4, e5, n5, y5, e6, n6, y6, f1, m1]
      have f2 := beq_false_of_ne g2
      have m2 := bne_true_of_ne g2
      simp [List.findIdx_cons, List.takeWhile, List.dropWhile, f0, m0, v0, v1, v2, e0, n0, y0, e1, n1, y1, e2, n2, y2, e3, n3, y3, e4, n4, y4, e5, n5, y5, e6, n6, y6, f1, m1, f2, m2]
    have e7 := beq_false_of_ne h7
    have n7 := bne_true_of_ne h7
    by_cases g1 : x1 = 32
    · subst g1
      simp [List.findIdx_cons, List.takeWhile, List.dropWhile, f0, m0, v0, v1, v2, e0, n0, y0, e1, n1, y1, e2, n2, y2, e3, n3, y3, e4, n4, y4, e5, n5, y5, e6, n6, y6, e7, n7, y7]
    have f1 := beq_false_of_ne g1
    have m1 := bne_true_of_ne g1
    by_cases g2 : x2 = 32
    · subst g2
      simp [List.findIdx_cons, List.takeWhile, List.dropWhile, f0, m0, v0, v1, v2, e0, n0, y0, e1, n1, y1, e2, n2, y2, e3, n3, y3, e4, n4, y4, e5, n5, y5, e6, n6, y6, e7, n7, y7, f1, m1]
    have f2 := beq_false_of_ne g2
    have m2 := bne_true_of_ne g2
    simp [List.findIdx_cons, List.takeWhile, List.dropWhile, f0, m0, v0, v1, v2, e0, n0, y0, e1, n1, y1, e2, n2, y2, e3, n3, y3, e4, n4, y4, e5, n5, y5, e6, n6, y6, e7, n7, y7, f1, m1, f2, m2]

/-- C16, as the code implements it: for an 8-byte name field and a 3-byte
extension field without zero bytes, `clean_file_name` returns the name field
cut before its first space when the extension's first byte is a space;
otherwise, when the extension holds a space or the name field holds only
spaces after its first space, it returns that cut name followed by `.` and the
extension field cut before its first space. -/
theorem clean_file_name_cut (name ext : List Nat) (hlen : name.length = 8)
    (hel : ext.length = 3) (hnz : ∀ b ∈ name, b ≠ 0) (hez : ∀ b ∈ ext, b ≠ 0)
    (hprov : 32 ∈ ext ∨ ∀ b ∈ name.dropWhile (fun c => c != 32), b = 32) :
    c_str (clean_file_name name ext)
      = if ext.getD 0 0 = 32 then cut_at_space name
        else cut_at_space name ++ [46] ++ cut_at_space ext := by
  by_cases hext : ext.getD 0 0 = 32
  · rw [if_pos hext]
    exact clean_file_name_no_ext name ext hlen hnz hext
  · rw [if_neg hext]
    exact clean_file_name_with_ext name ext hlen hel hnz hez hext hprov

/-- C16 (as implemented) on the fields `README  ` and `TXT`. -/
theorem clean_file_name_cut_witness :
    c_str (clean_file_name [82, 69, 65, 68, 77, 69, 32, 32] [84, 88, 84])
      = if ([84, 88, 84] : List Nat).getD 0 0 = 32
        then cut_at_space [82, 69, 65, 68, 77, 69, 32, 32]
        else cut_at_space [82, 69, 65, 68, 77, 69, 32, 32] ++ [46] ++ cut_at_space [84, 88, 84] :=
  clean_file_name_cut [82, 69, 65, 68, 77, 69, 32, 32] [84, 88, 84] (by decide) (by decide)
    (by decide) (by decide) (by decide)

/-- C16 as stated fails for a name field with a space before its last
non-space byte: the fields `AB CDEFG` and three spaces give `AB`, while the
name with only its trailing spaces removed is `AB CDEFG`; the fields
`AB CDEFG` and `TXT` give `AB.TXTFG`, not `AB CDEFG.TXT`. -/
theorem clean_file_name_cut_counterexample :
    c_str (clean_file_name [65, 66, 32, 67, 68, 69, 70, 71] [32, 32, 32]) = [65, 66]
      ∧ trim_trailing [65, 66, 32, 67, 68, 69, 70, 71] = [65, 66, 32, 67, 68, 69, 70, 71]
      ∧ c_str (clean_file_name [65, 66, 32, 67, 68, 69, 70, 71] [84, 88, 84])
        = [65, 66, 46, 84, 88, 84, 70, 71]
      ∧ trim_trailing [65, 66, 32, 67, 68, 69, 70, 71] ++ [46] ++ trim_trailing [84, 88, 84]
        = [65, 66, 32, 67, 68, 69, 70, 71, 46, 84, 88, 84] := by
  decide

theorem cut_at_space_padded (pre : List Nat) (n : Nat) (hpre : ∀ b ∈ pre, b ≠ 32) :
    cut_at_space (pre ++ List.replicate n 32) = pre := by
  induction pre with
  | nil => cases n <;> simp [cut_at_space, List.replicate_succ, List.takeWhile]
  | cons a as ih =>
    have ha : a ≠ 32 := hpre a (by simp)
    have ih' := ih (fun b hb => hpre b (by simp [hb]))
    unfold cut_at_space at ih' ⊢
    rw [List.cons_append, List.takeWhile_cons, bne_true_of_ne ha, if_pos rfl, ih']

theorem dropWhile_padded (pre : List Nat) (n : Nat) (hpre : ∀ b ∈ pre, b ≠ 32) :
    (pre ++ List.replicate n 32).dropWhile (fun c => c != 32) = List.replicate n 32 := by
  induction pre with
  | nil => cases n <;> simp [List.replicate_succ, List.dropWhile]
  | cons a as ih =>
    have ha : a ≠ 32 := hpre a (by simp)
    rw [List.cons_append, List.dropWhile_cons, bne_true_of_ne ha, if_pos rfl,
      ih (fun b hb => hpre b (by simp [hb]))]

/-- C17: for a name field made of `k ≤ 8` bytes other than space and zero
followed by `8 - k` spaces and an extension field made of `j ≤ 3` such bytes
followed by `3 - j` spaces, `clean_file_name` returns the `k` name bytes when
`j = 0`, and the `k` name bytes, `.`, and the `j` extension bytes when
`j ≥ 1`. -/
theorem clean_file_name_padded (pre epre : List Nat) (hk : pre.length ≤ 8)
    (hj : epre.length ≤ 3) (hpre : ∀ b ∈ pre, b ≠ 32 ∧ b ≠ 0)
    (hepre : ∀ b ∈ epre, b ≠ 32 ∧ b ≠ 0) :
    c_str (clean_file_name (pre ++ List.replicate (8 - pre.length) 32)
        (epre ++ List.replicate (3 - epre.length) 32))
      = if epre = [] then pre else pre ++ [46] ++ epre := by
  have hlen : (pre ++ List.replicate (8 - pre.length) 32).length = 8 := by
    simp only [List.length_append, List.length_replicate]
    omega
  have hel : (epre ++ List.replicate (3 - epre.length) 32).length = 3 := by
    simp only [List.length_append, List.length_replicate]
    omega
  have hnz : ∀ b ∈ pre ++ List.replicate (8 - pre.length) 32, b ≠ 0 := by
    intro b hb
    rcases List.mem_append.mp hb with h | h
    · exact (hpre b h).2
    · rw [(List.mem_replicate.mp h).2]
      decide
  have hez : ∀ b ∈ epre ++ List.replicate (3 - epre.length) 32, b ≠ 0 := by
    intro b hb
    rcases List.mem_append.mp hb with h | h
    · exact (hepre b h).2
    · rw [(List.mem_replicate.mp h).2]
      decide
  have hcut := cut_at_space_padded pre (8 - pre.length) (fun b hb => (hpre b hb).1)
  have hcute := cut_at_space_padded epre (3 - epre.length) (fun b hb => (hepre b hb).1)
  by_cases he : epre = []
  · subst he
    rw [if_pos rfl, clean_file_name_no_ext _ _ hlen hnz (by rfl), hcut]
  · rw [if_neg he]
    obtain ⟨x, xs, rfl⟩ := List.exists_cons_of_ne_nil he
    have hx : x ≠ 32 := (hepre x (by simp)).1
    rw [clean_file_name_with_ext _ _ hlen hel hnz hez (by simpa using hx)
      (Or.inr (by
        rw [dropWhile_padded pre _ (fun b hb => (hpre b hb).1)]
        intro b hb
        exact (List.mem_replicate.mp hb).2)), hcut, hcute]

/-- C17 on the fields `README  ` / `TXT` and `A       ` / three spaces. -/
theorem clean_file_name_padded_witness :
    c_str (clean_file_name [82, 69, 65, 68, 77, 69, 32, 32] [84, 88, 84])
        = [82, 69, 65, 68, 77, 69, 46, 84, 88, 84]
      ∧ c_str (clean_file_name [65, 32, 32, 32, 32, 32, 32, 32] [32, 32, 32]) = [65] :=
  ⟨clean_file_name_padded [82, 69, 65, 68, 77, 69] [84, 88, 84] (by decide) (by decide)
      (by decide) (by decide),
    clean_file_name_padded [65] [] (by decide) (by decide) (by decide) (by decide)⟩


/-! ### Upper-casing of paths -/

theorem make_all_caps_eq_map (path : List Nat) : make_all_caps path = path.map to_upper := by
  unfold make_all_caps
  apply List.map_congr_left
  intro c _
  unfold to_upper
  by_cases hc : 97 ≤ c ∧ c ≤ 122
  · rw [if_pos hc, if_pos hc]
    omega
  · rw [if_neg hc, if_neg hc]

theorem make_all_caps_idem (path : List Nat) :
    make_all_caps (make_all_caps path) = make_all_caps path := by
  unfold make_all_caps
  rw [List.map_map]
  apply List.map_congr_left
  intro c _
  simp only [Function.comp]
  by_cases hc : 97 ≤ c ∧ c ≤ 122
  · rw [if_pos hc, if_neg (by omega)]
  · rw [if_neg hc, if_neg hc]

/-- C18: `file_open` and `dir_open` give for a path the same outcome as for
the path in which every letter `a..z` is replaced by `A..Z`; the replacement
is what `make_all_caps` computes, it is idempotent and keeps the length. -/
theorem open_ignores_case (pvolume : volume_t) (path : List Nat) (fuel : Nat) :
    file_open pvolume (path.map to_upper) fuel = file_open pvolume path fuel
      ∧ dir_open pvolume (path.map to_upper) fuel = dir_open pvolume path fuel
      ∧ make_all_caps path = path.map to_upper
      ∧ make_all_caps (make_all_caps path) = make_all_caps path
      ∧ (make_all_caps path).length = path.length := by
  refine ⟨?_, ?_, make_all_caps_eq_map path, make_all_caps_idem path, ?_⟩
  · rw [← make_all_caps_eq_map]
    simp only [file_open, make_all_caps_idem]
  · rw [← make_all_caps_eq_map]
    simp only [dir_open, make_all_caps_idem]
  · simp [make_all_caps]

/-! ### Size of the allocation table -/

theorem fat_open_fat_length (pdisk : disk_t) (first_sector : Nat) (heap : Nat → Nat)
    (volume : volume_t) (h : fat_open pdisk first_sector heap = .done (.ok volume)) :
    volume.fat.length = volume.boot_record.sectors_per_fat * 256 := by
  unfold fat_open at h
  cases hboot : disk_read pdisk first_sector 1 with
  | error e => rw [hboot] at h; cases h
  | ok buf =>
    rw [hboot] at h
    simp only at h
    split at h
    · cases h
    · split at h
      · cases h
      · cases hfat : disk_read pdisk (decode_boot_record buf).reserved_sectors
            (decode_boot_record buf).sectors_per_fat with
        | error e => rw [hfat] at h; cases h
        | ok fat_bytes =>
          rw [hfat] at h
          simp only at h
          split at h
          · cases h
          cases hroot : disk_read pdisk (root_dir_start (decode_boot_record buf))
              (root_dir_sectors (decode_boot_record buf)) with
          | error e => rw [hroot] at h; cases h
          | ok data =>
            rw [hroot] at h
            simp only at h
            injection h with h
            injection h with h
            subst h
            simp only [fat_of_bytes, List.length_map, List.length_range,
              disk_read_length hfat]
            omega

set_option maxRecDepth 100000 in
/-- C19 fails for `sectors_per_fat = 128`: the boot sector is valid, the size
computed for the table is 0 bytes, and `fat_open` reads 128 sectors, 65536
bytes, into it. -/
theorem fat_size_wraps :
    (decode_boot_record wide_fat_boot).ebpb_signature = 0x29
      ∧ (decode_boot_record wide_fat_boot).boot_signature = [0x55, 0xAA]
      ∧ (decode_boot_record wide_fat_boot).sectors_per_fat = 128
      ∧ fat_size (decode_boot_record wide_fat_boot) = 0
      ∧ (decode_boot_record wide_fat_boot).sectors_per_fat * BYTES_PER_SECTOR = 65536 := by
  decide!

/-! ### Scan of a subdirectory past its zero record -/

set_option maxRecDepth 100000 in
/-- C20 fails on the volume with the stale record: the chain of `DIR` is
2, 6; the scan of cluster 2 for `OLD` ends at the zero record without a match
(the listing that `dir_open` builds stops there, with four entries); yet
`find_file` on `\DIR\OLD` goes on to cluster 6 and returns the record `OLD`
that lies there, after the zero record. -/
theorem find_file_after_zero_record :
    stale_volume.fat.get? 2 = some 6 ∧ stale_volume.fat.get? 6 = some 0xFFFF
      ∧ scan_cluster (records (cluster_bytes stale_volume 2)
          (stale_volume.bytes_per_cluster / 32)) [79, 76, 68] = .end_marker
      ∧ (listing_of (dir_open stale_volume [92, 68, 73, 82] 2)).map
          (fun l => (l.1.map clean_name, l.2))
        = some ([[46], [46, 46], [78, 79, 84, 69, 46, 84, 88, 84], [69, 77, 80, 84, 89]], 4)
      ∧ (records (cluster_bytes stale_volume 6) (stale_volume.bytes_per_cluster / 32)).head?
        = some (mk_record [79, 76, 68, 32, 32, 32, 32, 32] [32, 32, 32] 0x20 7 9)
      ∧ find_file stale_volume [92, 68, 73, 82, 92, 79, 76, 68] 2
        = .done (some (decode_entry
            (mk_record [79, 76, 68, 32, 32, 32, 32, 32] [32, 32, 32] 0x20 7 9))) := by
  decide!

/-! ### Listing a subdirectory -/

/-- A path made of separators only has no component: `find_file` returns its
initial `current_entry`, which is `NULL`. -/
theorem find_file_separators (pvolume : volume_t) (n fuel : Nat) :
    find_file pvolume (List.replicate n 92) fuel = .done none := by
  have hp : ∀ n, strsep_parts (List.replicate n 92) = List.replicate (n + 1) [] := by
    intro n
    induction n with
    | zero => rfl
    | succ n ih => simp only [List.replicate_succ, strsep_parts, if_true, ih]
  have hl : ∀ k, find_file_loop pvolume fuel none (List.replicate k []) = .done none := by
    intro k
    induction k with
    | zero => rfl
    | succ k ih =>
      simp only [List.replicate_succ, find_file_loop, find_file_step, List.length_nil, if_true]
      exact ih
  unfold find_file
  rw [hp, hl]

/-- `dir_open` reports `ENOENT` when `find_file` returns `NULL` for a path other
than the bare separator. -/
theorem dir_open_not_found (pvolume : volume_t) (path : List Nat) (fuel : Nat)
    (hbare : str_equal (make_all_caps path) [92] = false)
    (h : find_file pvolume (make_all_caps path) fuel = .done none) :
    dir_open pvolume path fuel = .done (.error .ENOENT) := by
  simp only [dir_open, hbare, h, Bool.false_eq_true, if_false]

/-- On every volume `dir_open` fails with `ENOENT` for a path made of two or
more separators. -/
theorem dir_open_separators (pvolume : volume_t) (n fuel : Nat) :
    dir_open pvolume (List.replicate (n + 2) 92) fuel = .done (.error .ENOENT) := by
  have hcaps : make_all_caps (List.replicate (n + 2) 92) = List.replicate (n + 2) 92 := by
    unfold make_all_caps
    rw [List.map_replicate]
    rfl
  apply dir_open_not_found
  · rw [hcaps]
    simp [str_equal, c_str, List.replicate_succ, List.takeWhile]
  · rw [hcaps]
    exact find_file_separators pvolume (n + 2) fuel

set_option maxRecDepth 100000 in
/-- C21 fails on the demonstration volume: for the bare separator `dir_open`
returns the root entry list, but for the path of two separators it fails with
`ENOENT`, and so it does for `\DIR\..`, whose last component is the record
`..` of `DIR` with first cluster 0: `find_file` returns `NULL` for it. -/
theorem dir_open_back_to_root :
    listing_of (dir_open demo_volume [92] 1)
        = some (demo_volume.root_entries, demo_volume.root_entries_n)
      ∧ errno_of (dir_open demo_volume [92, 92] 1) = some .ENOENT
      ∧ scan_cluster (records (cluster_bytes demo_volume 2)
          (demo_volume.bytes_per_cluster / 32)) [46, 46]
        = .found (decode_entry
            (mk_record [46, 46, 32, 32, 32, 32, 32, 32] [32, 32, 32] 0x10 0 0))
      ∧ find_file demo_volume [92, 68, 73, 82, 92, 46, 46] 1 = .done none
      ∧ errno_of (dir_open demo_volume [92, 68, 73, 82, 92, 46, 46] 1) = some .ENOENT := by
  decide!

/-! ### Record offsets in the scan of a subdirectory -/

/-- The inner loop of `find_file` leaves the cluster buffer exactly when no
record of the buffer ends it: no record has a name that starts with 0, and no
live record has the name looked for. -/
theorem scan_cluster_overrun_iff (rs : List (List Nat)) (part : List Nat) :
    scan_cluster rs part = .overrun
      ↔ ∀ r ∈ rs, r.getD 0 0 ≠ 0
          ∧ (live_record r → str_equal (clean_file_name (decode_entry r).name
              (decode_entry r).ext) part = false) := by
  induction rs with
  | nil => simp [scan_cluster]
  | cons q qs ih =>
    simp only [scan_cluster, List.forall_mem_cons]
    rw [decode_entry_name0]
    by_cases h0 : q.getD 0 0 = 0
    · rw [if_pos h0]
      constructor
      · intro h
        cases h
      · intro h
        exact absurd h0 h.1.1
    · rw [if_neg h0]
      by_cases hskip : q.getD 0 0 = 0xE5 ∨ (decode_entry q).attributes = 0x0F
      · rw [if_pos hskip, ih]
        have hnl : ¬ live_record q := by
          intro hl
          obtain ⟨_, h1, h2⟩ := hl
          simp only [decode_entry] at hskip
          exact hskip.elim h1 h2
        exact ⟨fun h => ⟨⟨h0, fun hl => absurd hl hnl⟩, h⟩, fun h => h.2⟩
      · rw [if_neg hskip]
        have hlive : live_record q := by
          simp only [decode_entry] at hskip
          push_neg at hskip
          exact ⟨h0, hskip.1, hskip.2⟩
        cases hm : str_equal (clean_file_name (decode_entry q).name (decode_entry q).ext) part with
        | true =>
          simp only [if_true]
          constructor
          · intro h
            cases h
          · intro h
            have := h.1.2 hlive
            cases this
        | false =>
          simp only [Bool.false_eq_true, if_false]
          rw [ih]
          exact ⟨fun h => ⟨⟨h0, fun _ => trivial⟩, h⟩, fun h => h.2⟩

set_option maxRecDepth 100000 in
/-- C22 fails on the volume whose directory cluster is full: the cluster
buffer of `DIR` has 512 bytes, its sixteen records are live and none is named
`X`, so the scan of `find_file` for `X` goes on to the record at offset
16 · 32 = 512, outside the buffer, and `find_file` on `\DIR\X` leaves defined
behaviour; the loop of `dir_open` stops at the bound and lists the sixteen
entries. -/
theorem find_file_reads_past_cluster :
    full_volume.bytes_per_cluster = 512
      ∧ (cluster_bytes full_volume 2).length = 512
      ∧ (records (cluster_bytes full_volume 2) (full_volume.bytes_per_cluster / 32)).length = 16
      ∧ (∀ r ∈ records (cluster_bytes full_volume 2) (full_volume.bytes_per_cluster / 32),
          live_record r ∧ clean_name (decode_entry r) = [65])
      ∧ scan_cluster (records (cluster_bytes full_volume 2)
          (full_volume.bytes_per_cluster / 32)) [88] = .overrun
      ∧ run_undefined (find_file full_volume [92, 68, 73, 82, 92, 88] 1) = true
      ∧ (listing_of (dir_open full_volume [92, 68, 73, 82] 1)).map
          (fun l => (l.1.map clean_name, l.2))
        = some (List.replicate 16 [65], 16) := by
  decide!

/-! ### Start of the data region -/

/-- The geometry fields of a volume that `fat_open` returns, in terms of the
boot record it decoded from the boot sector. -/
theorem fat_open_geometry (pdisk : disk_t) (first_sector : Nat) (heap : Nat → Nat)
    (volume : volume_t) (h : fat_open pdisk first_sector heap = .done (.ok volume)) :
    ∃ buf, disk_read pdisk first_sector 1 = .ok buf
      ∧ volume.boot_record = decode_boot_record buf
      ∧ volume.data_start = data_start_of (decode_boot_record buf)
      ∧ volume.first_data_sector = root_dir_start (decode_boot_record buf)
      ∧ (disk_read pdisk (root_dir_start (decode_boot_record buf))
          (root_dir_sectors (decode_boot_record buf))).isOk = true := by
  unfold fat_open at h
  cases hboot : disk_read pdisk first_sector 1 with
  | error e => rw [hboot] at h; cases h
  | ok buf =>
    rw [hboot] at h
    simp only at h
    split at h
    · cases h
    · split at h
      · cases h
      · cases hfat : disk_read pdisk (decode_boot_record buf).reserved_sectors
            (decode_boot_record buf).sectors_per_fat with
        | error e => rw [hfat] at h; cases h
        | ok fat_bytes =>
          rw [hfat] at h
          simp only at h
          split at h
          · cases h
          cases hroot : disk_read pdisk (root_dir_start (decode_boot_record buf))
              (root_dir_sectors (decode_boot_record buf)) with
          | error e => rw [hroot] at h; cases h
          | ok data =>
            rw [hroot] at h
            simp only at h
            injection h with h
            injection h with h
            subst h
            exact ⟨buf, rfl, rfl, rfl, rfl, by rw [hroot]; rfl⟩

/-- The arithmetic of `fat_open` for a boot record whose fields fit their
widths: the root directory takes `root_entries / 16` sectors from
`reserved_sectors + fat_number * sectors_per_fat`, and `data_start` is the
sector after them, shifted by `hidden_sectors`, in 32 bits. -/
theorem data_start_of_eq (boot_record : boot_record_t)
    (hre : boot_record.root_entries < 2 ^ 16)
    (hrs : boot_record.reserved_sectors < 2 ^ 16)
    (hfn : boot_record.fat_number < 2 ^ 8)
    (hspf : boot_record.sectors_per_fat < 2 ^ 16) :
    data_start_of boot_record
        = (boot_record.hidden_sectors + root_dir_start boot_record
            + root_dir_sectors boot_record) % 2 ^ 32
      ∧ root_dir_sectors boot_record = boot_record.root_entries / 16
      ∧ root_dir_sectors boot_record = boot_record.root_entries * 32 / 512
      ∧ root_dir_start boot_record
        = boot_record.reserved_sectors + boot_record.fat_number * boot_record.sectors_per_fat := by
  have hsec : root_dir_sectors boot_record = boot_record.root_entries / 16 := by
    simp only [root_dir_sectors, root_dir_size, BYTES_PER_SECTOR]
    omega
  have hprod : boot_record.fat_number * boot_record.sectors_per_fat < 2 ^ 8 * 2 ^ 16 :=
    Nat.mul_lt_mul'' hfn hspf
  have hstart : root_dir_start boot_record
      = boot_record.reserved_sectors
        + boot_record.fat_number * boot_record.sectors_per_fat := by
    simp only [root_dir_start]
    omega
  refine ⟨?_, hsec, ?_, hstart⟩
  · rw [hsec, hstart]
    simp only [data_start_of]
    omega
  · rw [hsec]
    omega

/-- C23: for a volume returned by `fat_open`, `data_start` equals
`hidden_sectors + root_dir_start + root_dir_sectors` modulo 2^32, where
`root_dir_start = reserved_sectors + fat_number * sectors_per_fat` and
`root_dir_sectors = (root_entries * 32) / 512 = root_entries / 16` are the
first sector and the sector count of the root-directory region that
`fat_open` reads. -/
theorem fat_open_data_start (pdisk : disk_t) (first_sector : Nat) (heap : Nat → Nat)
    (volume : volume_t) (h : fat_open pdisk first_sector heap = .done (.ok volume)) :
    volume.data_start
        = (volume.boot_record.hidden_sectors + root_dir_start volume.boot_record
            + root_dir_sectors volume.boot_record) % 2 ^ 32
      ∧ volume.data_start
        = (volume.boot_record.reserved_sectors + volume.boot_record.hidden_sectors
            + volume.boot_record.fat_number * volume.boot_record.sectors_per_fat
            + volume.boot_record.root_entries / 16) % 2 ^ 32
      ∧ root_dir_sectors volume.boot_record = volume.boot_record.root_entries / 16
      ∧ root_dir_sectors volume.boot_record = volume.boot_record.root_entries * 32 / 512
      ∧ root_dir_start volume.boot_record
        = volume.boot_record.reserved_sectors
          + volume.boot_record.fat_number * volume.boot_record.sectors_per_fat
      ∧ volume.first_data_sector = root_dir_start volume.boot_record
      ∧ (disk_read pdisk (root_dir_start volume.boot_record)
          (root_dir_sectors volume.boot_record)).isOk = true := by
  obtain ⟨buf, hboot, hbr, hds, hfds, hread⟩ :=
    fat_open_geometry pdisk first_sector heap volume h
  have hb := disk_read_getD_lt hboot
  have hre : (decode_boot_record buf).root_entries < 2 ^ 16 := by
    have h1 := hb 17
    have h2 := hb (17 + 1)
    simp only [decode_boot_record, le16]
    omega
  have hrs : (decode_boot_record buf).reserved_sectors < 2 ^ 16 := by
    have h1 := hb 14
    have h2 := hb (14 + 1)
    simp only [decode_boot_record, le16]
    omega
  have hfn : (decode_boot_record buf).fat_number < 2 ^ 8 := by
    have h1 := hb 16
    simp only [decode_boot_record]
    omega
  have hspf : (decode_boot_record buf).sectors_per_fat < 2 ^ 16 := by
    have h1 := hb 22
    have h2 := hb (22 + 1)
    simp only [decode_boot_record, le16]
    omega
  obtain ⟨e1, e2, e3, e4⟩ := data_start_of_eq (decode_boot_record buf) hre hrs hfn hspf
  rw [hbr, hds, hfds]
  exact ⟨e1, rfl, e2, e3, e4, rfl, hread⟩

set_option maxRecDepth 100000 in
/-- C23 on the demonstration volume: the root directory is sector 2 and the
data region starts at sector 3. -/
theorem fat_open_data_start_witness :
    demo_volume.data_start
        = (demo_volume.boot_record.hidden_sectors + root_dir_start demo_volume.boot_record
            + root_dir_sectors demo_volume.boot_record) % 2 ^ 32
      ∧ demo_volume.data_start
        = (demo_volume.boot_record.reserved_sectors + demo_volume.boot_record.hidden_sectors
            + demo_volume.boot_record.fat_number * demo_volume.boot_record.sectors_per_fat
            + demo_volume.boot_record.root_entries / 16) % 2 ^ 32
      ∧ root_dir_sectors demo_volume.boot_record = demo_volume.boot_record.root_entries / 16
      ∧ root_dir_sectors demo_volume.boot_record
        = demo_volume.boot_record.root_entries * 32 / 512
      ∧ root_dir_start demo_volume.boot_record
        = demo_volume.boot_record.reserved_sectors
          + demo_volume.boot_record.fat_number * demo_volume.boot_record.sectors_per_fat
      ∧ demo_volume.first_data_sector = root_dir_start demo_volume.boot_record
      ∧ (disk_read demo_disk (root_dir_start demo_volume.boot_record)
          (root_dir_sectors demo_volume.boot_record)).isOk = true :=
  fat_open_data_start demo_disk 0 (fun _ => 0) demo_volume
    (eq_ok_value empty_volume (by decide!))

end Fat16
